import Mathlib

/-!
Verification development for the gltfio asset loader
(`libs/gltfio/src/AssetLoader.cpp`).

The loader walks a parsed glTF document, creates one entity per node,
builds Filament vertex/index buffers once per distinct source mesh,
creates material instances cached by (material pointer XOR vertex-color
bit), and emits deferred `BufferBinding` / `TextureBinding` descriptors.

Shallow embedding conventions:
* machine integers are `Nat` with explicit `% 2 ^ 32` / `% 2 ^ 64`
  where the C++ code truncates (the `uint32_t(...)` casts and `size_t`
  arithmetic of `computeBindingSize` / `computeBindingOffset`);
* floats are modelled as `ℚ` (the loader only moves float values
  around and takes componentwise `min` / `max`, it performs no rounding
  of its own except in the world-transform multiply);
* engine-owned objects (entities, vertex/index buffers, material
  instances) are identified by handles drawn from a single fresh-name
  counter, mirroring distinct heap addresses;
* pointer identity of source meshes / materials / nodes is modelled by
  the object's index in the document's arrays, as the spec's design
  notes themselves suggest.
-/

set_option linter.unusedVariables false

namespace Gltfio

/-! ### Rational vectors, matrices, affine transforms, bounding boxes -/

/-- A 3-component vector over `ℚ`, standing in for `filament::math::float3`. -/
structure V3 where
  x : ℚ
  y : ℚ
  z : ℚ
deriving DecidableEq

/-- Componentwise minimum (filament's `min(float3, float3)`). -/
def vmin (a b : V3) : V3 := ⟨min a.x b.x, min a.y b.y, min a.z b.z⟩

/-- Componentwise maximum (filament's `max(float3, float3)`). -/
def vmax (a b : V3) : V3 := ⟨max a.x b.x, max a.y b.y, max a.z b.z⟩

/-- Componentwise order on `V3`. -/
def vle (a b : V3) : Prop := a.x ≤ b.x ∧ a.y ≤ b.y ∧ a.z ≤ b.z

instance (a b : V3) : Decidable (vle a b) := by
  unfold vle; infer_instance

def vadd (a b : V3) : V3 := ⟨a.x + b.x, a.y + b.y, a.z + b.z⟩

/-- A 4-component vector over `ℚ` (`float4`). -/
structure V4 where
  x : ℚ
  y : ℚ
  z : ℚ
  w : ℚ
deriving DecidableEq

/-- A 3x3 matrix over `ℚ`. -/
structure M3 where
  a00 : ℚ
  a01 : ℚ
  a02 : ℚ
  a10 : ℚ
  a11 : ℚ
  a12 : ℚ
  a20 : ℚ
  a21 : ℚ
  a22 : ℚ
deriving DecidableEq

/-- The identity 3x3 matrix.  `filament::math::mat3f()` default-constructs
to the identity, so the stubbed `setParameter("...UvMatrix", mat3f())`
calls of `createMaterialInstance` pass this matrix. -/
def idM3 : M3 := ⟨1, 0, 0, 0, 1, 0, 0, 0, 1⟩

def M3.mulV (m : M3) (v : V3) : V3 :=
  ⟨m.a00 * v.x + m.a01 * v.y + m.a02 * v.z,
   m.a10 * v.x + m.a11 * v.y + m.a12 * v.z,
   m.a20 * v.x + m.a21 * v.y + m.a22 * v.z⟩

def M3.mul (m n : M3) : M3 :=
  ⟨m.a00 * n.a00 + m.a01 * n.a10 + m.a02 * n.a20,
   m.a00 * n.a01 + m.a01 * n.a11 + m.a02 * n.a21,
   m.a00 * n.a02 + m.a01 * n.a12 + m.a02 * n.a22,
   m.a10 * n.a00 + m.a11 * n.a10 + m.a12 * n.a20,
   m.a10 * n.a01 + m.a11 * n.a11 + m.a12 * n.a21,
   m.a10 * n.a02 + m.a11 * n.a12 + m.a12 * n.a22,
   m.a20 * n.a00 + m.a21 * n.a10 + m.a22 * n.a20,
   m.a20 * n.a01 + m.a21 * n.a11 + m.a22 * n.a21,
   m.a20 * n.a02 + m.a21 * n.a12 + m.a22 * n.a22⟩

/-- An affine transform of 3-space: the model of a `mat4f` whose bottom
row is `(0,0,0,1)`.  glTF node matrices and TRS compositions are affine,
and `createRenderable` applies the world matrix to homogeneous points
`float4(p, 1.0)`, which is exactly `lin * p + trans`. -/
structure Aff where
  lin : M3
  trans : V3
deriving DecidableEq

/-- The identity transform (the root entity's transform). -/
def idAff : Aff := ⟨idM3, ⟨0, 0, 0⟩⟩

/-- Apply an affine transform to a point: `(M * float4(p, 1.0)).xyz`. -/
def Aff.apply (t : Aff) (v : V3) : V3 := vadd (t.lin.mulV v) t.trans

/-- Compose two affine transforms (`TransformManager` world-transform
composition, modelled from the spec: the world transform is the
composition of all ancestor local transforms). -/
def compAff (a b : Aff) : Aff := ⟨a.lin.mul b.lin, a.apply b.trans⟩

/-- Stand-in for `FLT_MAX` in the `ℚ` model of floats. -/
def fltMax : ℚ := 2 ^ 128

/-- An axis-aligned bounding box (`filament::Aabb`). -/
structure AabbQ where
  min : V3
  max : V3
deriving DecidableEq

/-- Modelled from the spec: `filament::Aabb` (header outside this
source tree) default-constructs to the empty box
`min = FLT_MAX, max = -FLT_MAX`, the identity of box union. -/
def emptyAabb : AabbQ := ⟨⟨fltMax, fltMax, fltMax⟩, ⟨-fltMax, -fltMax, -fltMax⟩⟩

/-- Box union: componentwise min of mins / max of maxes. -/
def unionAabb (a b : AabbQ) : AabbQ := ⟨vmin a.min b.min, vmax a.max b.max⟩

/-! ### The glTF document model (the read-only cgltf structures) -/

/-- cgltf component types. -/
inductive ComponentType where
  | r_8 | r_8u | r_16 | r_16u | r_32u | r_32f
deriving DecidableEq

/-- cgltf accessor element types. -/
inductive AccType where
  | scalar | vec2 | vec3 | vec4 | mat2 | mat3 | mat4
deriving DecidableEq

/-- Byte size of one component (cgltf `cgltf_component_size`). -/
def componentSize : ComponentType → Nat
  | .r_8 => 1
  | .r_8u => 1
  | .r_16 => 2
  | .r_16u => 2
  | .r_32u => 4
  | .r_32f => 4

/-- Number of components of an element type (cgltf `cgltf_num_components`). -/
def numComponents : AccType → Nat
  | .scalar => 1
  | .vec2 => 2
  | .vec3 => 3
  | .vec4 => 4
  | .mat2 => 4
  | .mat3 => 9
  | .mat4 => 16

/-- Modelled from the spec: `cgltf_calc_size` (from the vendored cgltf
header, not part of this source tree) — the byte size of one element of
the accessor's type, i.e. component count times component size. -/
def calcSize (t : AccType) (c : ComponentType) : Nat :=
  numComponents t * componentSize c

/-- A cgltf buffer view together with its owning buffer's uri and size
(the loader only reads `bv->offset`, `bv->buffer->uri` and
`bv->buffer->size`). -/
structure BufferView where
  bufferUri : Option String
  bufferSize : Nat
  offset : Nat
deriving DecidableEq

/-- A cgltf accessor.  `minPos` / `maxPos` are the declared min/max
(consulted only for position attributes). -/
structure Accessor where
  componentType : ComponentType
  type : AccType
  count : Nat
  stride : Nat
  offset : Nat
  bufferView : BufferView
  normalized : Bool
  isSparse : Bool
  minPos : V3
  maxPos : V3
deriving DecidableEq

/-- `computeBindingSize`: `uint32_t(accessor->stride * (accessor->count - 1)
+ element_size)`.  The inner arithmetic is `size_t` (64-bit, so
`count - 1` wraps at zero) and the result is truncated to 32 bits. -/
def computeBindingSize (acc : Accessor) : Nat :=
  (acc.stride * ((acc.count + (2 ^ 64 - 1)) % 2 ^ 64) +
    calcSize acc.type acc.componentType) % 2 ^ 32

/-- `computeBindingOffset`: `uint32_t(accessor->offset +
accessor->buffer_view->offset)`. -/
def computeBindingOffset (acc : Accessor) : Nat :=
  (acc.offset + acc.bufferView.offset) % 2 ^ 32

/-- cgltf vertex attribute semantics (`cgltf_attribute_type`). -/
inductive AttribType where
  | position | normal | tangent | texcoord | color | joints | weights | invalid
deriving DecidableEq

/-- One entry of a primitive's attribute list. -/
structure Attribute where
  type : AttribType
  index : Nat
  data : Accessor
deriving DecidableEq

/-- cgltf primitive topology types. -/
inductive PrimType where
  | points | lines | line_loop | line_strip | triangles | triangle_strip | triangle_fan
deriving DecidableEq

/-- Modelled from the spec: `getPrimitiveType` (GltfEnums.h, not in this
source tree) translates the cgltf topology into a Filament primitive
type and fails on unsupported topologies; Filament renders points,
lines and triangles. -/
def getPrimitiveType : PrimType → Bool
  | .points => true
  | .lines => true
  | .triangles => true
  | _ => false

/-- Modelled from the spec: `getIndexType` (GltfEnums.h) — narrow
(1-byte) unsigned indices are accepted and widened to 16-bit, 16-bit and
32-bit unsigned indices map directly, anything else is unrecognized. -/
def getIndexType : ComponentType → Option Bool
  | .r_8u => some false
  | .r_16u => some false
  | .r_32u => some true
  | _ => none

/-- Modelled from the spec: `getVertexAttrType` (GltfEnums.h) — every
named glTF semantic has a Filament counterpart; an invalid semantic is
unrecognized. -/
def getVertexAttrType : AttribType → Bool
  | .invalid => false
  | _ => true

/-- Modelled from the spec: `getElementType` (GltfEnums.h) — scalar and
vector accessors map to Filament attribute types, matrix-typed
accessors are unsupported. -/
def getElementType (t : AccType) (_c : ComponentType) : Bool :=
  match t with
  | .mat2 => false
  | .mat3 => false
  | .mat4 => false
  | _ => true

/-- The UV-slot assignment produced by the material generator
(`UvMap` of MaterialGenerator.h): each source texcoord set index maps to
one of the two supported UV channels or is unused. -/
inductive UvSet where
  | unused | uv0 | uv1
deriving DecidableEq

/-- A UV-set assignment, indexed by the source texcoord set. -/
def UvMap : Type := Nat → UvSet

/-- A glTF mesh primitive. `material` is the index of the source
material (`none` models a null `cgltf_material*`). -/
structure Prim where
  type : PrimType
  indices : Option Accessor
  attributes : List Attribute
  material : Option Nat
deriving DecidableEq

def defPrim : Prim := ⟨.triangles, none, [], none⟩

/-- A glTF mesh: an ordered list of primitives.  Mesh identity (the
`cgltf_mesh*` cache key) is the mesh's index in the document. -/
structure MeshD where
  primitives : List Prim
deriving DecidableEq

/-- A source texture (`cgltf_texture`): the loader only checks whether
an image is attached (sampler state is consumed opaquely). -/
structure TextureD where
  hasImage : Bool
deriving DecidableEq

/-- A KHR_texture_transform record: offset, rotation angle, scale. -/
structure UvT where
  offsetX : ℚ
  offsetY : ℚ
  rotation : ℚ
  scaleX : ℚ
  scaleY : ℚ
deriving DecidableEq

/-- A cgltf texture view (one texture slot of a material):
optional texture, texcoord set index, scale (normal-scale /
occlusion-strength), and optional UV transform. -/
structure TexView where
  texture : Option TextureD
  texcoord : Nat
  scaleFactor : ℚ
  hasTransform : Bool
  transform : UvT
deriving DecidableEq

def defTexView : TexView := ⟨none, 0, 1, false, ⟨0, 0, 0, 1, 1⟩⟩

/-- cgltf alpha modes. -/
inductive GAlphaMode where
  | modeOpq | modeMask | modeBlend
deriving DecidableEq

/-- Filament gltfio alpha modes (`AlphaMode` of MaterialGenerator.h):
listed in declaration order, so zero-initialization yields `fOpq`. -/
inductive FAlphaMode where
  | fOpq | fMasked | fTransparent
deriving DecidableEq

/-- A source material (`cgltf_material`), restricted to the fields the
loader reads. -/
structure MatD where
  hasSpecularGlossiness : Bool
  doubleSided : Bool
  unlit : Bool
  alphaMode : GAlphaMode
  alphaCutoff : ℚ
  emissiveFactor : V3
  baseColorFactor : V4
  metallicFactor : ℚ
  roughnessFactor : ℚ
  baseColorTexture : TexView
  metallicRoughnessTexture : TexView
  normalTexture : TexView
  occlusionTexture : TexView
  emissiveTexture : TexView
deriving DecidableEq

def defMatD : MatD :=
  ⟨false, false, false, .modeOpq, 0, ⟨0, 0, 0⟩, ⟨1, 1, 1, 1⟩, 1, 1,
   defTexView, defTexView, defTexView, defTexView, defTexView⟩

/-- A source skin: optional name and the node identities of its joints. -/
structure SkinD where
  name : Option String
  joints : List Nat
deriving DecidableEq

/-- A glTF node.  `nid` is the node's identity (its index in the
document's node array, standing in for the `cgltf_node*` used as the
node-map key).  The local transform is carried as an already-composed
affine map: it is either the node's explicit matrix or the
`mat4f::compose(translation, rotation, scale)` of its TRS triple, both
affine. -/
inductive NodeT where
  | node (nid : Nat) (localTransform : Aff) (mesh : Option Nat) (skin : Option Nat)
      (children : List NodeT)

/-- A parsed document (`cgltf_data`), restricted to what `createAsset`
reads.  `defaultScene = none` models a null `data->scene` pointer.  The
flat node array of cgltf is recovered by flattening the scene forests. -/
structure Doc where
  scenes : List (List NodeT)
  defaultScene : Option Nat
  meshes : List MeshD
  materials : List MatD
  skins : List SkinD

/-! ### The loader's output records and transient state -/

/-- A deferred buffer-upload descriptor (`BufferBinding` of
FFilamentAsset.h).  The `data` pointer into the source buffer is not
modelled (byte storage is outside this embedding); buffers are
identified by fresh handles. -/
structure BufferBinding where
  uri : Option String
  totalSize : Nat
  bufferIndex : Nat
  offset : Nat
  size : Nat
  vertexBuffer : Option Nat
  indexBuffer : Option Nat
  convertBytesToShorts : Bool
  generateTrivialIndices : Bool
deriving DecidableEq

/-- A deferred texture-upload descriptor, restricted to the fields the
verified properties mention (source location, MIME type and sampler
state are consumed opaquely by the external resource loader). -/
structure TextureBinding where
  materialInstance : Nat
  materialParameter : String
  srgb : Bool
deriving DecidableEq

/-- A value passed to `MaterialInstance::setParameter`. -/
inductive MatParamVal where
  | pq (x : ℚ)
  | pv3 (v : V3)
  | pv4 (v : V4)
  | pm3 (m : M3)
deriving DecidableEq

/-- One `builder.geometry(index, primType, vertices, indices)` call
issued to the renderable builder.  `primTypeSupported` records whether
`getPrimitiveType` succeeded; when it failed the C++ code passes an
uninitialized `primType` to this call. -/
structure GeomCall where
  mesh : Nat
  prim : Nat
  primTypeSupported : Bool
  vertices : Nat
  indices : Nat
deriving DecidableEq

/-- A mesh-cache entry slot (the `Primitive` struct): vertex / index
buffer references plus the object-space bounding box. -/
structure PrimRec where
  vertices : Option Nat
  indices : Option Nat
  aabb : AabbQ
deriving DecidableEq

def defPrimRec : PrimRec := ⟨none, none, emptyAabb⟩

/-- A resolved skin (`Skin` of FFilamentAsset.h). -/
structure SkinA where
  name : Option String
  joints : List Nat
  targets : List Nat
deriving DecidableEq

/-- The material feature key (`MaterialKey` of MaterialGenerator.h),
mirroring the designated initializer of `createMaterialInstance`. -/
structure MaterialKey where
  doubleSided : Bool
  unlit : Bool
  hasVertexColors : Bool
  hasBaseColorTexture : Bool
  hasMetallicRoughnessTexture : Bool
  hasNormalTexture : Bool
  hasOcclusionTexture : Bool
  hasEmissiveTexture : Bool
  alphaMode : FAlphaMode
  alphaMaskThreshold : ℚ
  baseColorUV : Nat
  metallicRoughnessUV : Nat
  emissiveUV : Nat
  aoUV : Nat
  normalUV : Nat
  hasTextureTransforms : Bool
deriving DecidableEq

/-- The zero-initialized `MaterialKey` (what the fields a designated
initializer does not mention are set to). -/
def defMaterialKey : MaterialKey :=
  ⟨false, false, false, false, false, false, false, false, .fOpq, 0, 0, 0, 0, 0, 0, false⟩

/-- The loader's per-import state: the asset being built
(`FFilamentAsset` fields) plus the transient caches and error flag of
`FAssetLoader`.  `counter` draws fresh handles for entities, buffers and
material instances (distinct heap addresses).  `geoms`, `buildEvents`
and `renderables` record the calls issued to the engine's builders:
geometry calls, vertex/index-buffer constructions (one entry per
mesh-cache slot filled), and renderable builds (world transform and
source mesh of each mesh-bearing node).  `mPrimMap` is not modelled (no
verified property mentions it). -/
structure LSt where
  counter : Nat
  root : Option Nat
  entities : List Nat
  nodeMap : List (Nat × Nat)
  meshCache : List (Nat × List PrimRec)
  matCache : List (Nat × Nat)
  matInstances : List Nat
  bufferBindings : List BufferBinding
  texBindings : List TextureBinding
  paramSets : List (Nat × String × MatParamVal)
  geoms : List GeomCall
  buildEvents : List (Nat × Nat)
  renderables : List (Aff × Nat)
  skins : List SkinA
  bbox : AabbQ
  error : Bool
deriving DecidableEq

/-- A fresh `FFilamentAsset` plus a fresh loader bookkeeping state. -/
def initLSt : LSt :=
  ⟨0, none, [], [], [], [], [], [], [], [], [], [], [], [], emptyAabb, false⟩

/-! ### Association-list maps (the robin_map caches) -/

/-- Lookup in an association list (`robin_map::find`). -/
def lookupA {α : Type} : List (Nat × α) → Nat → Option α
  | [], _ => none
  | (k', v) :: rest, k => if k' = k then some v else lookupA rest k

/-- Insert-or-assign (`robin_map::operator[] = v`). -/
def insertA {α : Type} : List (Nat × α) → Nat → α → List (Nat × α)
  | [], k, v => [(k, v)]
  | (k', v') :: rest, k, v =>
    if k' = k then (k, v) :: rest else (k', v') :: insertA rest k v

/-- The keys of an association list. -/
def keysA {α : Type} (l : List (Nat × α)) : List Nat := l.map (·.1)

/-! ### Primitive construction (`FAssetLoader::createPrimitive`) -/

/-- The index-accessor `BufferBinding` of `createPrimitive`:
uri/offset/size from the accessor, with the narrow-to-wide conversion
flag when the component type is 8-bit unsigned. -/
def mkIndexBinding (acc : Accessor) (indices : Nat) : BufferBinding :=
  { uri := acc.bufferView.bufferUri
    totalSize := acc.bufferView.bufferSize % 2 ^ 32
    bufferIndex := 0
    offset := computeBindingOffset acc
    size := computeBindingSize acc
    vertexBuffer := none
    indexBuffer := some indices
    convertBytesToShorts := acc.componentType == ComponentType.r_8u
    generateTrivialIndices := false }

/-- The synthetic-index `BufferBinding` of `createPrimitive` for a
primitive with no index accessor: every field the designated
initializer does not mention is zero-initialized. -/
def mkTrivialIndexBinding (vertexCount : Nat) (indices : Nat) : BufferBinding :=
  { uri := none
    totalSize := 0
    bufferIndex := 0
    offset := 0
    size := (vertexCount * 4) % 2 ^ 32
    vertexBuffer := none
    indexBuffer := some indices
    convertBytesToShorts := false
    generateTrivialIndices := true }

/-- Expanding a primitive's object-space box from a position accessor's
declared min/max (`outPrim->aabb.min = min(outPrim->aabb.min, minp)`). -/
def expandPosAabb (b : AabbQ) (acc : Accessor) : AabbQ :=
  ⟨vmin b.min acc.minPos, vmax b.max acc.maxPos⟩

/-- The first attribute loop of `createPrimitive`: declares vertex-buffer
attributes, seeds the object-space box from position accessors, and
fails on an unrecognized semantic, an unsupported accessor element
type, or a sparse accessor.  Returns the (possibly partially expanded)
box and whether the loop ran to completion.  The attribute declarations
issued to the `VertexBuffer::Builder` are engine-side effects with no
observable state here. -/
def attrPass1 (uvmap : UvMap) : List Attribute → AabbQ → AabbQ × Bool
  | [], b => (b, true)
  | a :: rest, b =>
    if a.type = AttribType.normal then attrPass1 uvmap rest b
    else if a.type = AttribType.tangent then attrPass1 uvmap rest b
    else if getVertexAttrType a.type = false then (b, false)
    else if a.type = AttribType.texcoord ∧ uvmap a.index = UvSet.unused then
      attrPass1 uvmap rest b
    else
      let b' := if a.type = AttribType.position then expandPosAabb b a.data else b
      if getElementType a.data.type a.data.componentType = false then (b', false)
      else if a.data.isSparse then (b', false)
      else attrPass1 uvmap rest b'

/-- A vertex-attribute `BufferBinding` of the second attribute loop. -/
def mkAttrBinding (slot : Nat) (vertices : Nat) (acc : Accessor) : BufferBinding :=
  { uri := acc.bufferView.bufferUri
    totalSize := acc.bufferView.bufferSize % 2 ^ 32
    bufferIndex := slot
    offset := computeBindingOffset acc
    size := computeBindingSize acc
    vertexBuffer := some vertices
    indexBuffer := none
    convertBytesToShorts := false
    generateTrivialIndices := false }

/-- The second attribute loop of `createPrimitive`: emits one
`BufferBinding` per bound attribute, skipping normals, tangents, and
texcoord sets the UV assignment marks unused. -/
def attrPass2 (uvmap : UvMap) (vertices : Nat) : Nat → List Attribute → List BufferBinding
  | _, [] => []
  | slot, a :: rest =>
    if a.type = AttribType.normal ∨ a.type = AttribType.tangent then
      attrPass2 uvmap vertices (slot + 1) rest
    else if a.type = AttribType.texcoord ∧ uvmap a.index = UvSet.unused then
      attrPass2 uvmap vertices (slot + 1) rest
    else mkAttrBinding slot vertices a.data :: attrPass2 uvmap vertices (slot + 1) rest

/-- The outcome of one `createPrimitive` call: the primitive's
object-space box as left in the cache slot (the C++ code mutates
`outPrim->aabb` in place, so partial expansion survives a failure), the
built buffer pair on success, the advanced fresh-handle counter, and
the emitted `BufferBinding`s (already appended to the asset even when
the call later fails). -/
structure CPOut where
  outAabb : AabbQ
  buffers : Option (Nat × Nat)
  counter : Nat
  bindings : List BufferBinding
deriving DecidableEq

/-- `FAssetLoader::createPrimitive`.  `aabb0` is the current value of
the cache slot's box, `n0` the fresh-handle counter.  The index buffer
is built first (handle `n0`), the vertex buffer after the first
attribute loop (handle `n0 + 1`).  With no index accessor, the C++
code reads `inPrim->attributes[0]` for the vertex count; an empty
attribute list is undefined behaviour there and is modelled as count
zero. -/
def createPrimitive (inPrim : Prim) (uvmap : UvMap) (aabb0 : AabbQ) (n0 : Nat) : CPOut :=
  match inPrim.indices with
  | some acc =>
    match getIndexType acc.componentType with
    | none => { outAabb := aabb0, buffers := none, counter := n0, bindings := [] }
    | some _ =>
      let ib := mkIndexBinding acc n0
      match attrPass1 uvmap inPrim.attributes aabb0 with
      | (b, false) => { outAabb := b, buffers := none, counter := n0 + 1, bindings := [ib] }
      | (b, true) =>
        { outAabb := b, buffers := some (n0 + 1, n0), counter := n0 + 2,
          bindings := ib :: attrPass2 uvmap (n0 + 1) 0 inPrim.attributes }
  | none =>
    let vertexCount := match inPrim.attributes with
      | a :: _ => a.data.count
      | [] => 0
    let ib := mkTrivialIndexBinding vertexCount n0
    match attrPass1 uvmap inPrim.attributes aabb0 with
    | (b, false) => { outAabb := b, buffers := none, counter := n0 + 1, bindings := [ib] }
    | (b, true) =>
      { outAabb := b, buffers := some (n0 + 1, n0), counter := n0 + 2,
        bindings := ib :: attrPass2 uvmap (n0 + 1) 0 inPrim.attributes }

/-! ### Material instances (`FAssetLoader::createMaterialInstance`) -/

/-- The material generator (`MaterialGenerator::getOrCreateMaterial`),
an external collaborator: from a feature key it produces the (possibly
constraint-adjusted) key and a UV-set assignment.  The compiled
material itself has no observable state in this core. -/
def GenF : Type := MaterialKey → MaterialKey × UvMap

/-- The `intptr_t` value of a source material pointer: null is zero,
and distinct materials occupy distinct 8-byte-aligned addresses (the
`cgltf_material` array), so XOR-ing the low bit never collides two
materials. -/
def matAddr : Option Nat → Nat
  | none => 0
  | some i => 8 * (i + 1)

/-- The material-instance cache key:
`((intptr_t) inputMat) ^ (vertexColor ? 1 : 0)`. -/
def matCacheKey (inputMat : Option Nat) (vertexColor : Bool) : Nat :=
  Nat.xor (matAddr inputMat) (if vertexColor then 1 else 0)

/-- The `MaterialKey` designated initializer of
`createMaterialInstance` (lines 512-549), including the
`has_pbr_specular_glossiness` fallthrough to the metallic-roughness
fields and the alpha-mode switch. -/
def matKeyOf (m : MatD) (vertexColor : Bool) : MaterialKey :=
  let hasTextureTransforms :=
    m.baseColorTexture.hasTransform || m.metallicRoughnessTexture.hasTransform ||
    m.normalTexture.hasTransform || m.occlusionTexture.hasTransform ||
    m.emissiveTexture.hasTransform
  let base : MaterialKey :=
    { doubleSided := m.doubleSided
      unlit := m.unlit
      hasVertexColors := vertexColor
      hasBaseColorTexture := m.baseColorTexture.texture.isSome
      hasMetallicRoughnessTexture := m.metallicRoughnessTexture.texture.isSome
      hasNormalTexture := m.normalTexture.texture.isSome
      hasOcclusionTexture := m.occlusionTexture.texture.isSome
      hasEmissiveTexture := m.emissiveTexture.texture.isSome
      alphaMode := .fOpq
      alphaMaskThreshold := 1 / 2
      baseColorUV := m.baseColorTexture.texcoord
      metallicRoughnessUV := m.metallicRoughnessTexture.texcoord
      emissiveUV := m.emissiveTexture.texcoord
      aoUV := m.occlusionTexture.texcoord
      normalUV := m.normalTexture.texcoord
      hasTextureTransforms := hasTextureTransforms }
  match m.alphaMode with
  | .modeOpq => { base with alphaMode := .fOpq }
  | .modeMask => { base with alphaMode := .fMasked, alphaMaskThreshold := m.alphaCutoff }
  | .modeBlend => { base with alphaMode := .fTransparent }

/-- Record one `setParameter` call on a material instance. -/
def setP (st : LSt) (mi : Nat) (name : String) (v : MatParamVal) : LSt :=
  { st with paramSets := st.paramSets ++ [(mi, name, v)] }

/-- `FAssetLoader::addTextureBinding`: a texture with no image is
skipped with a warning; otherwise a `TextureBinding` is appended.
Sampler construction has no observable state in the verified
properties. -/
def addTextureBinding (st : LSt) (mi : Nat) (param : String) (tex : TextureD)
    (srgb : Bool) : LSt :=
  if tex.hasImage then
    { st with texBindings := st.texBindings ++
        [{ materialInstance := mi, materialParameter := param, srgb := srgb }] }
  else st

/-- One texture-slot block of `createMaterialInstance`: when the key
has the slot's texture, bind it, and when the key reports texture
transforms, set the slot's UV-matrix parameter — to `mat3f()`, the
identity, the transform computation being left commented out in the
source. -/
def texSlotStep (st : LSt) (mi : Nat) (flag hasTT : Bool) (mapName uvName : String)
    (slot : TexView) (srgb : Bool) : LSt :=
  if flag then
    let st := addTextureBinding st mi mapName (slot.texture.getD ⟨false⟩) srgb
    if hasTT then setP st mi uvName (.pm3 idM3) else st
  else st

/-- `FAssetLoader::createMaterialInstance`.  Returns the state, the
material-instance handle, and the UV-set assignment.  On a cache hit
the C++ code returns without writing the `uvmap` out-parameter; the
caller's default-initialized `UvMap` is modelled as all-unused. -/
def createMaterialInstance (doc : Doc) (gen : GenF) (st : LSt) (inputMat : Option Nat)
    (vertexColor : Bool) : LSt × Nat × UvMap :=
  let key := matCacheKey inputMat vertexColor
  match lookupA st.matCache key with
  | some mi => (st, mi, fun _ => UvSet.unused)
  | none =>
    match inputMat with
    | none =>
      let matkey : MaterialKey := { defMaterialKey with unlit := true }
      let (_, uvmap) := gen matkey
      let mi := st.counter
      let st := { st with
                  counter := st.counter + 1
                  matInstances := st.matInstances ++ [mi]
                  matCache := insertA st.matCache 0 mi }
      (st, mi, uvmap)
    | some idx =>
      let m := doc.materials.getD idx defMatD
      let (matkey, uvmap) := gen (matKeyOf m vertexColor)
      let mi := st.counter
      let st := { st with
                  counter := st.counter + 1
                  matInstances := st.matInstances ++ [mi] }
      let st := setP st mi "emissiveFactor" (.pv3 m.emissiveFactor)
      let st := setP st mi "normalScale" (.pq m.normalTexture.scaleFactor)
      let st := setP st mi "aoStrength" (.pq m.occlusionTexture.scaleFactor)
      let st := setP st mi "baseColorFactor" (.pv4 m.baseColorFactor)
      let st := setP st mi "metallicFactor" (.pq m.metallicFactor)
      let st := setP st mi "roughnessFactor" (.pq m.roughnessFactor)
      let st := texSlotStep st mi matkey.hasBaseColorTexture matkey.hasTextureTransforms
        "baseColorMap" "baseColorUvMatrix" m.baseColorTexture true
      let st := texSlotStep st mi matkey.hasMetallicRoughnessTexture matkey.hasTextureTransforms
        "metallicRoughnessMap" "metallicRoughnessUvMatrix" m.metallicRoughnessTexture false
      let st := texSlotStep st mi matkey.hasNormalTexture matkey.hasTextureTransforms
        "normalMap" "normalUvMatrix" m.normalTexture false
      let st := texSlotStep st mi matkey.hasOcclusionTexture matkey.hasTextureTransforms
        "occlusionMap" "occlusionUvMatrix" m.occlusionTexture false
      let st := texSlotStep st mi matkey.hasEmissiveTexture matkey.hasTextureTransforms
        "emissiveMap" "emissiveUvMatrix" m.emissiveTexture true
      let st := { st with matCache := insertA st.matCache key mi }
      (st, mi, uvmap)

/-! ### Renderable creation and scene traversal -/

/-- `primitiveHasVertexColor`: whether any attribute is a color set. -/
def primitiveHasVertexColor (inPrim : Prim) : Bool :=
  inPrim.attributes.any (fun a => a.type == AttribType.color)

/-- The current value of mesh-cache slot `p` of mesh `m`. -/
def slotOf (st : LSt) (m p : Nat) : Option PrimRec :=
  (lookupA st.meshCache m).bind (fun prims => prims.get? p)

/-- Overwrite mesh-cache slot `p` of mesh `m` (the C++ code writes the
`Primitive` through a pointer into the cache entry). -/
def setMeshSlot (st : LSt) (m p : Nat) (pr : PrimRec) : LSt :=
  { st with meshCache :=
      st.meshCache.map (fun e => (e.1, if e.1 = m then e.2.set p pr else e.2)) }

/-- The geometry call issued for slot `pr` of primitive `p` of mesh `m`. -/
def geomFor (m p : Nat) (ok : Bool) (pr : PrimRec) : GeomCall :=
  { mesh := m, prim := p, primTypeSupported := ok,
    vertices := pr.vertices.getD 0, indices := pr.indices.getD 0 }

/-- The primitive list of mesh `m` of the document (empty for an
out-of-range mesh reference). -/
def meshPrims (doc : Doc) (m : Nat) : List Prim := (doc.meshes.getD m ⟨[]⟩).primitives

/-- The source primitive at index `p` of mesh `m`. -/
def primAt (doc : Doc) (m p : Nat) : Prim := (meshPrims doc m).getD p defPrim

/-- The body of the per-primitive loop of `createRenderable` for
primitive index `p` of mesh `m`: translate the topology (failure is
only logged), create or fetch the material instance, build the
primitive's buffers if the cache slot is still empty (a failure sets
the sticky error flag and skips the box expansion and the geometry
call), then expand the node's object-space box and issue the geometry
call. -/
def primStep (doc : Doc) (gen : GenF) (m : Nat) (st : LSt) (acc : AabbQ) (p : Nat) :
    LSt × AabbQ :=
  let inputPrim := primAt doc m p
  let primTypeOk := getPrimitiveType inputPrim.type
  let hasVC := primitiveHasVertexColor inputPrim
  let r0 := createMaterialInstance doc gen st inputPrim.material hasVC
  let st := r0.1
  let uvmap := r0.2.2
  let outputPrim := (slotOf st m p).getD defPrimRec
  match outputPrim.vertices with
  | none =>
    let r := createPrimitive inputPrim uvmap outputPrim.aabb st.counter
    let st := { st with
        counter := r.counter
        bufferBindings := st.bufferBindings ++ r.bindings }
    match r.buffers with
    | none =>
      let st := setMeshSlot st m p { outputPrim with aabb := r.outAabb }
      ({ st with error := true }, acc)
    | some (v, ix) =>
      let pr : PrimRec := { vertices := some v, indices := some ix, aabb := r.outAabb }
      let st := setMeshSlot st m p pr
      let st := { st with
          buildEvents := st.buildEvents ++ [(m, p)]
          geoms := st.geoms ++ [geomFor m p primTypeOk pr] }
      (st, unionAabb pr.aabb acc)
  | some _ =>
    let st := { st with geoms := st.geoms ++ [geomFor m p primTypeOk outputPrim] }
    (st, unionAabb outputPrim.aabb acc)

/-- The per-primitive loop of `createRenderable` over primitive
indices. -/
def primLoop (doc : Doc) (gen : GenF) (m : Nat) : List Nat → LSt → AabbQ → LSt × AabbQ
  | [], st, acc => (st, acc)
  | p :: ps, st, acc =>
    let r := primStep doc gen m st acc p
    primLoop doc gen m ps r.1 r.2

/-- `FAssetLoader::createRenderable` for a node with world transform
`world` referencing mesh `m`: allocate the mesh-cache entry on first
reference, run the primitive loop, transform the two corners of the
accumulated object-space box by the world transform, and fold them into
the asset's bounding box.  The renderable build itself (shadow flags,
skinning joint count, culling) is an engine-side effect recorded in
`renderables`. -/
def createRenderable (doc : Doc) (gen : GenF) (st : LSt) (world : Aff) (m : Nat) : LSt :=
  let nprims := (meshPrims doc m).length
  let st := match lookupA st.meshCache m with
    | some _ => st
    | none => { st with meshCache := insertA st.meshCache m (List.replicate nprims defPrimRec) }
  let r := primLoop doc gen m (List.range nprims) st emptyAabb
  let st := r.1
  let aabb := r.2
  let minpt := Aff.apply world aabb.min
  let maxpt := Aff.apply world aabb.max
  { st with
      bbox := ⟨vmin st.bbox.min minpt, vmax st.bbox.max maxpt⟩
      renderables := st.renderables ++ [(world, m)] }

mutual

/-- `FAssetLoader::createEntity`: create an entity and its transform
component, record it in the entity list and the node map, create a
renderable when the node bears a mesh, and recurse into the children. -/
def createEntity (doc : Doc) (gen : GenF) (st : LSt) (parentWorld : Aff) : NodeT → LSt
  | NodeT.node nid lt mesh _skin children =>
    let entity := st.counter
    let world := compAff parentWorld lt
    let st := { st with
        counter := st.counter + 1
        entities := st.entities ++ [entity]
        nodeMap := insertA st.nodeMap nid entity }
    let st := match mesh with
      | some m => createRenderable doc gen st world m
      | none => st
    createEntities doc gen st world children

/-- The recursion of `createEntity` over a list of sibling nodes. -/
def createEntities (doc : Doc) (gen : GenF) (st : LSt) (parentWorld : Aff) :
    List NodeT → LSt
  | [] => st
  | n :: ns => createEntities doc gen (createEntity doc gen st parentWorld n) parentWorld ns

end

/-- Scene selection of `createAsset`: the document's default scene when
specified, otherwise the first scene
(`srcAsset->scene ? srcAsset->scene : srcAsset->scenes`); `none` when
the document has no scenes. -/
def selectedScene (doc : Doc) : Option (List NodeT) :=
  match doc.defaultScene with
  | some i => doc.scenes.get? i
  | none => doc.scenes.head?

/-- The traversal phase of `createAsset`: create the root entity with
an identity transform, then recurse over the scene's root nodes. -/
def traverse (doc : Doc) (gen : GenF) (roots : List NodeT) : LSt :=
  let st := initLSt
  let st := { st with root := some st.counter, counter := st.counter + 1 }
  createEntities doc gen st idAff roots

/-- Resolve a joint list through the node map, failing at the first
joint with no entry (the `nodeMap.at(...)` calls of the joint loop,
which throw `std::out_of_range` on a missing key). -/
def lookupJoints (nodeMap : List (Nat × Nat)) : List Nat → Option (List Nat)
  | [] => some []
  | j :: js =>
    match lookupA nodeMap j, lookupJoints nodeMap js with
    | some e, some es => some (e :: es)
    | _, _ => none

/-- `FAssetLoader::importSkinningData`: resolve every joint-node
reference through the node map.  `nodeMap.at` throws on a missing key
(`none` here): a joint node that was never visited fails the import
loudly instead of producing an empty entity. -/
def importSkinningData (nodeMap : List (Nat × Nat)) (s : SkinD) : Option SkinA :=
  match lookupJoints nodeMap s.joints with
  | none => none
  | some js => some { name := s.name, joints := js, targets := [] }

/-- The skin loop of `createAsset` over all source skins, propagating
the exception thrown for a missing joint. -/
def importAllSkins (nodeMap : List (Nat × Nat)) : List SkinD → Option (List SkinA)
  | [] => some []
  | s :: rest =>
    match importSkinningData nodeMap s, importAllSkins nodeMap rest with
    | some d, some ds => some (d :: ds)
    | _, _ => none

mutual

/-- Flatten a node tree into (node identity, skin reference) pairs. -/
def nodeFlat : NodeT → List (Nat × Option Nat)
  | NodeT.node nid _ _ skin children => (nid, skin) :: forestFlat children

/-- Flatten a forest of node trees. -/
def forestFlat : List NodeT → List (Nat × Option Nat)
  | [] => []
  | n :: ns => nodeFlat n ++ forestFlat ns

end

/-- The document's flat node array (`srcAsset->nodes`), modelled as the
nodes of all scene forests. -/
def docNodes (doc : Doc) : List (Nat × Option Nat) :=
  forestFlat doc.scenes.flatten

/-- Replace the element at an index of a list, leaving the list
unchanged when the index is out of range. -/
def updAt {α : Type} : List α → Nat → (α → α) → List α
  | [], _, _ => []
  | a :: rest, 0, f => f a :: rest
  | a :: rest, Nat.succ k, f => a :: updAt rest k f

/-- The second skin loop of `createAsset`: for every source node
carrying a skin reference, append its entity to that skin's target
list.  `mNodeMap[&node]` is `robin_map::operator[]`, which
default-constructs a zero entity for a node that was never visited. -/
def addSkinTargets (nodeMap : List (Nat × Nat)) (skins : List SkinA) :
    List (Nat × Option Nat) → List SkinA
  | [] => skins
  | (nid, sk) :: rest =>
    let skins := match sk with
      | some s => updAt skins s
          (fun dst => { dst with targets := dst.targets ++ [(lookupA nodeMap nid).getD 0] })
      | none => skins
    addSkinTargets nodeMap skins rest

/-- The outcome of one import.  `nullDeref` marks the execution in
which `createAsset` has deleted `mResult` and set it to null after the
error check, and the very next statement
(`mResult->mSkins.resize(...)`) dereferences the null pointer.
`skinJointMissing` marks the `std::out_of_range` thrown by
`nodeMap.at` for a joint node that was never visited. -/
inductive ImportResult where
  | ok (st : LSt)
  | nullDeref
  | skinJointMissing
deriving DecidableEq

/-- `FAssetLoader::createAsset`: select a scene (zero scenes is not an
error: the fresh asset is returned with no root entity and no node
traversed), traverse it, consult the sticky error flag once, resolve
the skins against the completed node map, record each skin's targets,
and clear the transient caches. -/
def createAsset (doc : Doc) (gen : GenF) : ImportResult :=
  match selectedScene doc with
  | none => ImportResult.ok initLSt
  | some roots =>
    let st := traverse doc gen roots
    if st.error then ImportResult.nullDeref
    else
      match importAllSkins st.nodeMap doc.skins with
      | none => ImportResult.skinJointMissing
      | some skins =>
        let skins := addSkinTargets st.nodeMap skins (docNodes doc)
        ImportResult.ok { st with
          skins := skins
          matCache := []
          meshCache := []
          error := false }

/-! ### Specification-side definitions (for comparison with the code) -/

/-- The object-space bounding box of a source primitive as specified:
the union, over its position attributes, of the accessors' declared
min/max boxes. -/
def primAabbSpec (pr : Prim) : AabbQ :=
  pr.attributes.foldl
    (fun b a => if a.type = AttribType.position then expandPosAabb b a.data else b)
    emptyAabb

/-- The eight corners of a box. -/
def corners (b : AabbQ) : List V3 :=
  [⟨b.min.x, b.min.y, b.min.z⟩, ⟨b.min.x, b.min.y, b.max.z⟩,
   ⟨b.min.x, b.max.y, b.min.z⟩, ⟨b.min.x, b.max.y, b.max.z⟩,
   ⟨b.max.x, b.min.y, b.min.z⟩, ⟨b.max.x, b.min.y, b.max.z⟩,
   ⟨b.max.x, b.max.y, b.min.z⟩, ⟨b.max.x, b.max.y, b.max.z⟩]

/-- The smallest box containing a list of points. -/
def spanPoints (ps : List V3) : AabbQ :=
  ps.foldl (fun bb v => ⟨vmin bb.min v, vmax bb.max v⟩) emptyAabb

/-- Transforming an axis-aligned bounding box by an affine transform,
as the spec's words require: the axis-aligned box spanned by the images
of the original box's corners. -/
def transformAabb (t : Aff) (b : AabbQ) : AabbQ :=
  spanPoints ((corners b).map (fun v => Aff.apply t v))

mutual

/-- Accumulate, over the mesh-bearing nodes of a tree, the union of
each primitive's object-space box transformed by the node's world
transform (the spec's asset-level bounding box). -/
def specNodeBox (doc : Doc) (w : Aff) : NodeT → AabbQ → AabbQ
  | NodeT.node _ lt mesh _ children, acc =>
    let w' := compAff w lt
    let acc := match mesh with
      | some m => (meshPrims doc m).foldl
          (fun a pr => unionAabb a (transformAabb w' (primAabbSpec pr))) acc
      | none => acc
    specForestBox doc w' children acc

/-- `specNodeBox` over a forest. -/
def specForestBox (doc : Doc) (w : Aff) : List NodeT → AabbQ → AabbQ
  | [], acc => acc
  | n :: ns, acc => specForestBox doc w ns (specNodeBox doc w n acc)

end

/-- The spec's asset-level bounding box of a traversal. -/
def specBBox (doc : Doc) (roots : List NodeT) : AabbQ :=
  specForestBox doc idAff roots emptyAabb

mutual

/-- The source meshes referenced by the mesh-bearing nodes of a tree. -/
def meshesOfNode : NodeT → List Nat
  | NodeT.node _ _ mesh _ children =>
    (match mesh with | some m => [m] | none => []) ++ meshesOfForest children

/-- `meshesOfNode` over a forest. -/
def meshesOfForest : List NodeT → List Nat
  | [] => []
  | n :: ns => meshesOfNode n ++ meshesOfForest ns

end

/-- Modelled from the spec: the 2-D affine UV matrix a texture
transform denotes — the standard composition of scale, then rotation
(given here by its cosine and sine), then offset, as a 3x3 matrix
acting on homogeneous UV coordinates. -/
def matrixFromUvTransform (ox oy sx sy cosR sinR : ℚ) : M3 :=
  ⟨sx * cosR, -(sy * sinR), ox,
   sx * sinR, sy * cosR, oy,
   0, 0, 1⟩

/-- Every accessor a primitive's emitted bindings can draw from: the
index accessor, if any, and the attribute accessors. -/
def accessorsOf (pr : Prim) : List Accessor :=
  (match pr.indices with | some a => [a] | none => []) ++ pr.attributes.map (·.data)

/-! ### Concrete inputs used by the evaluation theorems -/

/-- A generator that keeps the key unchanged and assigns no UV sets. -/
def genId : GenF := fun k => (k, fun _ => UvSet.unused)

/-- A well-formed position accessor. -/
def posAcc : Accessor :=
  { componentType := .r_32f, type := .vec3, count := 3, stride := 12, offset := 0,
    bufferView := { bufferUri := some "buf.bin", bufferSize := 256, offset := 0 },
    normalized := false, isSparse := false, minPos := ⟨0, 0, 0⟩, maxPos := ⟨1, 1, 1⟩ }

/-- A position attribute in slot 0. -/
def posAttr : Attribute := ⟨.position, 0, posAcc⟩

/-- A well-formed triangle primitive with no index accessor and no
material. -/
def triPrim : Prim := ⟨.triangles, none, [posAttr], none⟩

/-- A document with no scenes, no meshes, no materials, but one skin. -/
def docC10 : Doc := ⟨[], none, [], [], [⟨some "s", [42]⟩]⟩

/-- A document with nothing in it at all. -/
def emptyDoc : Doc := ⟨[], none, [], [], []⟩

/-- A primitive whose topology (`line_loop`) `getPrimitiveType`
rejects, but whose accessors are all well-formed. -/
def badTypePrim : Prim := ⟨.line_loop, none, [posAttr], none⟩

/-- A node referencing mesh 0 with an identity local transform. -/
def meshNode0 : NodeT := .node 0 idAff (some 0) none []

/-- One scene, one node, a two-primitive mesh whose first primitive has
an unsupported topology. -/
def docC3 : Doc := ⟨[[meshNode0]], none, [⟨[badTypePrim, triPrim]⟩], [], []⟩

/-- A matrix-typed accessor, which `getElementType` rejects. -/
def matAcc : Accessor := { posAcc with type := .mat2 }

/-- A primitive with an unsupported accessor element type. -/
def badAccPrim : Prim := ⟨.triangles, none, [⟨.position, 0, matAcc⟩], none⟩

/-- One scene, one node, one mesh whose only primitive has an
unsupported accessor type, so traversal sets the sticky error flag. -/
def docC4 : Doc := ⟨[[meshNode0]], none, [⟨[badAccPrim]⟩], [], []⟩

/-- A base-color texture slot with an image and a nontrivial
KHR_texture_transform: offset (1,2), rotation 0, scale (3,4). -/
def texC9 : TexView := ⟨some ⟨true⟩, 0, 1, true, ⟨1, 2, 0, 3, 4⟩⟩

/-- A material whose base-color texture carries the transform above. -/
def matC9 : MatD := { defMatD with baseColorTexture := texC9 }

/-- A document holding just the material above. -/
def docC9 : Doc := ⟨[], none, [], [matC9], []⟩

/-! ### Claim theorems -/

/-- **C2.** The claim states that every `createMaterialInstance` call
with a null source material returns one single shared unlit instance
cached under a reserved key, regardless of the vertex-color flag.  The
code computes the lookup key as `(intptr_t) nullptr ^ vertexColorBit`
but stores the created instance under the reserved key `0`, so with
`vertexColor = true` the lookup key is `1`, never finds the cached
instance, and every call creates a fresh instance: two successive calls
with (null material, vertex color) return instances `0` and `1`, leave
two created instances in the asset, and leave nothing cached under the
key the lookups use. -/
theorem c2_null_material_instance_not_shared :
    (createMaterialInstance emptyDoc genId initLSt none true).2.1 = 0 ∧
    (createMaterialInstance emptyDoc genId
        (createMaterialInstance emptyDoc genId initLSt none true).1 none true).2.1 = 1 ∧
    (createMaterialInstance emptyDoc genId
        (createMaterialInstance emptyDoc genId initLSt none true).1
        none true).1.matInstances = [0, 1] ∧
    lookupA (createMaterialInstance emptyDoc genId
        (createMaterialInstance emptyDoc genId initLSt none true).1
        none true).1.matCache 1 = none := by
  decide

/-- **C3.** The claim states that an unsupported primitive type sets
the sticky error flag and causes that primitive to be skipped (no
geometry entry built for it).  In the code the failed
`getPrimitiveType` is only logged: the error flag stays clear, the
primitive is not skipped, and its geometry call is still issued — with
the `primType` variable left uninitialized.  On a mesh whose first
primitive has `line_loop` topology the traversal ends with the error
flag still `false`, both primitives built, and a geometry entry emitted
for the unsupported-type primitive. -/
theorem c3_unsupported_primitive_type_not_flagged :
    (traverse docC3 genId [meshNode0]).error = false ∧
    (traverse docC3 genId [meshNode0]).geoms =
      [⟨0, 0, false, 4, 3⟩, ⟨0, 1, true, 6, 5⟩] ∧
    (traverse docC3 genId [meshNode0]).buildEvents = [(0, 0), (0, 1)] := by
  decide

/-- **C4.** The claim states that when the sticky error flag is set the
partially built asset is discarded and the construction does not
continue to use the discarded result.  The code does delete the asset
and null the result pointer when the flag is set — but the very next
statement, `mResult->mSkins.resize(...)`, unconditionally dereferences
that null pointer.  On a document whose only primitive has an
unsupported accessor type, traversal sets the flag and the import ends
in the null dereference. -/
theorem c4_error_flag_discard_then_use :
    (traverse docC4 genId [meshNode0]).error = true ∧
    createAsset docC4 genId = ImportResult.nullDeref := by
  decide

/-- **C9.** The claim states that when the material key indicates a UV
transform, the slot's UV-matrix parameter is set to the affine
transform computed from the source transform's offset, rotation and
scale.  The code sets the parameter to a default-constructed `mat3f()`
— the identity — with the intended
`matrixFromUvTransform(uvt.offset, uvt.rotation, uvt.scale)` call left
commented out.  For a base-color texture with offset (1,2), rotation 0
and scale (3,4) the recorded parameter is the identity matrix, which
differs from the transform the claim requires. -/
theorem c9_uv_matrix_set_to_identity :
    ((createMaterialInstance docC9 genId initLSt (some 0) false).1.paramSets.filter
        (fun t => t.2.1 == "baseColorUvMatrix")) =
      [(0, "baseColorUvMatrix", MatParamVal.pm3 idM3)] ∧
    idM3 ≠ matrixFromUvTransform 1 2 3 4 1 0 := by
  constructor
  · rfl
  · intro h
    have h00 : idM3.a00 = (matrixFromUvTransform 1 2 3 4 1 0).a00 := by rw [h]
    rw [idM3, matrixFromUvTransform] at h00
    norm_num at h00

/-- **C10.** When the document specifies no default scene,
`createAsset` selects the first scene in the scene list; when the
document has zero scenes it returns the freshly created asset — no
root entity, no entities, no error — and the skin-resolution phase is
never executed (the skin list stays empty even when the document has
skins). -/
theorem c10_scene_selection (doc : Doc) (gen : GenF) :
    (doc.defaultScene = none → selectedScene doc = doc.scenes.head?) ∧
    (doc.scenes = [] → doc.defaultScene = none →
      createAsset doc gen = ImportResult.ok initLSt ∧ initLSt.root = none ∧
      initLSt.entities = [] ∧ initLSt.skins = [] ∧ initLSt.error = false) := by
  constructor
  · intro h
    simp [selectedScene, h]
  · intro h1 h2
    refine ⟨?_, rfl, rfl, rfl, rfl⟩
    simp [createAsset, selectedScene, h1, h2]

/-- Witness for **C10** at a zero-scene document that carries a skin:
the import succeeds with the untouched initial asset. -/
theorem c10_scene_selection_witness :
    selectedScene docC10 = docC10.scenes.head? ∧
    (createAsset docC10 genId = ImportResult.ok initLSt ∧ initLSt.root = none ∧
      initLSt.entities = [] ∧ initLSt.skins = [] ∧ initLSt.error = false) := by
  exact ⟨(c10_scene_selection docC10 genId).1 rfl,
         (c10_scene_selection docC10 genId).2 rfl rfl⟩

/-! ### Lemmas about the emitted attribute bindings -/

/-- Attribute bindings never target an index buffer. -/
theorem attrPass2_filter_index (uvmap : UvMap) (v : Nat) :
    ∀ (attrs : List Attribute) (slot : Nat),
      (attrPass2 uvmap v slot attrs).filter (fun x => x.indexBuffer.isSome) = [] := by
  intro attrs
  induction attrs with
  | nil => intro slot; rfl
  | cons a rest ih =>
    intro slot
    unfold attrPass2
    split
    · exact ih (slot + 1)
    · split
      · exact ih (slot + 1)
      · simp [List.filter, mkAttrBinding, ih (slot + 1)]

/-- Every attribute binding is `mkAttrBinding` of one of the attribute
accessors. -/
theorem attrPass2_mem (uvmap : UvMap) (v : Nat) :
    ∀ (attrs : List Attribute) (slot : Nat) (b : BufferBinding),
      b ∈ attrPass2 uvmap v slot attrs →
      ∃ a ∈ attrs, ∃ s, b = mkAttrBinding s v a.data := by
  intro attrs
  induction attrs with
  | nil => intro slot b hb; simp [attrPass2] at hb
  | cons a rest ih =>
    intro slot b hb
    unfold attrPass2 at hb
    split at hb
    · obtain ⟨a', ha', s, hs⟩ := ih (slot + 1) b hb
      exact ⟨a', List.mem_cons_of_mem _ ha', s, hs⟩
    · split at hb
      · obtain ⟨a', ha', s, hs⟩ := ih (slot + 1) b hb
        exact ⟨a', List.mem_cons_of_mem _ ha', s, hs⟩
      · rcases List.mem_cons.mp hb with h | h
        · exact ⟨a, List.mem_cons_self a rest, slot, h⟩
        · obtain ⟨a', ha', s, hs⟩ := ih (slot + 1) b h
          exact ⟨a', List.mem_cons_of_mem _ ha', s, hs⟩

/-- `computeBindingOffset` is exactly the accessor offset plus the
buffer-view offset when the sum fits in 32 bits. -/
theorem computeBindingOffset_eq (acc : Accessor)
    (h : acc.offset + acc.bufferView.offset < 2 ^ 32) :
    computeBindingOffset acc = acc.offset + acc.bufferView.offset :=
  Nat.mod_eq_of_lt h

/-- `computeBindingSize` is exactly `stride * (count - 1) + elementSize`
when the count is a positive 64-bit value and the result fits in 32
bits. -/
theorem computeBindingSize_eq (acc : Accessor)
    (h1 : 1 ≤ acc.count) (h2 : acc.count < 2 ^ 64)
    (h3 : acc.stride * (acc.count - 1) + calcSize acc.type acc.componentType < 2 ^ 32) :
    computeBindingSize acc =
      acc.stride * (acc.count - 1) + calcSize acc.type acc.componentType := by
  unfold computeBindingSize
  have hmod : (acc.count + (2 ^ 64 - 1)) % 2 ^ 64 = acc.count - 1 := by omega
  rw [hmod]
  exact Nat.mod_eq_of_lt h3

/-- **C6.** For a primitive with no index accessor, exactly one
`BufferBinding` targets the primitive's index buffer, and it carries
the generate-trivial-indices flag and no source byte range (no uri, no
offset, no total size); for a primitive whose index accessor has 8-bit
unsigned components, the unique index binding carries the
narrow-to-wide conversion flag.  The attribute-list hypothesis rules
out the undefined read of `inPrim->attributes[0]` in the synthetic
case. -/
theorem c6_index_binding_flags (inPrim : Prim) (uvmap : UvMap) (b0 : AabbQ) (n0 : Nat)
    (hattrs : inPrim.attributes ≠ []) :
    (inPrim.indices = none →
      ∃ b, (createPrimitive inPrim uvmap b0 n0).bindings.filter
          (fun x => x.indexBuffer.isSome) = [b] ∧
        b.generateTrivialIndices = true ∧ b.uri = none ∧ b.offset = 0 ∧
        b.totalSize = 0) ∧
    (∀ acc, inPrim.indices = some acc → acc.componentType = ComponentType.r_8u →
      ∃ b, (createPrimitive inPrim uvmap b0 n0).bindings.filter
          (fun x => x.indexBuffer.isSome) = [b] ∧
        b.convertBytesToShorts = true ∧ b.generateTrivialIndices = false) := by
  constructor
  · intro hidx
    rcases hq : attrPass1 uvmap inPrim.attributes b0 with ⟨bb, ok⟩
    refine ⟨mkTrivialIndexBinding
        (match inPrim.attributes with | a :: _ => a.data.count | [] => 0) n0,
      ?_, rfl, rfl, rfl, rfl⟩
    cases ok <;>
      simp [createPrimitive, hidx, hq, List.filter, mkTrivialIndexBinding,
        attrPass2_filter_index]
  · intro acc hidx hcomp
    rcases hq : attrPass1 uvmap inPrim.attributes b0 with ⟨bb, ok⟩
    refine ⟨mkIndexBinding acc n0, ?_, ?_, rfl⟩
    · cases ok <;>
        simp [createPrimitive, hidx, hcomp, hq, getIndexType, List.filter, mkIndexBinding,
          attrPass2_filter_index]
    · simp [mkIndexBinding, hcomp]

/-- The all-unused UV assignment (what `UvMap uvmap;` default
construction provides before anyone writes it). -/
def uvUnused : UvMap := fun _ => UvSet.unused

/-- An 8-bit-unsigned scalar index accessor. -/
def idx8Acc : Accessor :=
  { posAcc with type := .scalar, componentType := .r_8u, count := 6, stride := 1 }

/-- A triangle primitive indexed by 8-bit unsigned components. -/
def idx8Prim : Prim := ⟨.triangles, some idx8Acc, [posAttr], none⟩

/-- Witness for **C6**: the synthetic-index case at `triPrim` (no index
accessor) and the conversion-flag case at `idx8Prim` (8-bit indices). -/
theorem c6_index_binding_flags_witness :
    triPrim.attributes ≠ [] ∧ idx8Prim.attributes ≠ [] ∧
    (∃ b, (createPrimitive triPrim uvUnused emptyAabb 0).bindings.filter
        (fun x => x.indexBuffer.isSome) = [b] ∧
      b.generateTrivialIndices = true ∧ b.uri = none ∧ b.offset = 0 ∧
      b.totalSize = 0) ∧
    (∃ b, (createPrimitive idx8Prim uvUnused emptyAabb 0).bindings.filter
        (fun x => x.indexBuffer.isSome) = [b] ∧
      b.convertBytesToShorts = true ∧ b.generateTrivialIndices = false) :=
  ⟨by decide, by decide,
   (c6_index_binding_flags triPrim uvUnused emptyAabb 0 (by decide)).1 rfl,
   (c6_index_binding_flags idx8Prim uvUnused emptyAabb 0 (by decide)).2 idx8Acc rfl rfl⟩

/-- The offset of an attribute binding is `computeBindingOffset`, its
size `computeBindingSize`, of the attribute's accessor. -/
theorem mkAttrBinding_fields (s v : Nat) (acc : Accessor) :
    (mkAttrBinding s v acc).offset = computeBindingOffset acc ∧
    (mkAttrBinding s v acc).size = computeBindingSize acc :=
  ⟨rfl, rfl⟩

/-- **C7.** Every `BufferBinding` emitted from an accessor (equivalently
every emitted binding without the synthetic-index flag) has
`size = stride * (count - 1) + elementSize` and
`offset = accessorOffset + bufferViewOffset`, provided each accessor's
count is a positive 64-bit value and the computed size and offset fit
in 32 bits (the C++ arithmetic truncates otherwise). -/
theorem c7_binding_size_offset (inPrim : Prim) (uvmap : UvMap) (b0 : AabbQ) (n0 : Nat)
    (hacc : ∀ acc ∈ accessorsOf inPrim, 1 ≤ acc.count ∧ acc.count < 2 ^ 64 ∧
      acc.stride * (acc.count - 1) + calcSize acc.type acc.componentType < 2 ^ 32 ∧
      acc.offset + acc.bufferView.offset < 2 ^ 32) :
    ∀ b ∈ (createPrimitive inPrim uvmap b0 n0).bindings,
      b.generateTrivialIndices = false →
      ∃ acc ∈ accessorsOf inPrim,
        b.offset = acc.offset + acc.bufferView.offset ∧
        b.size = acc.stride * (acc.count - 1) + calcSize acc.type acc.componentType := by
  intro b hb hflag
  rcases hq : attrPass1 uvmap inPrim.attributes b0 with ⟨bb, ok⟩
  cases hidx : inPrim.indices with
  | none =>
    cases ok
    · simp [createPrimitive, hidx, hq] at hb
      rw [hb] at hflag
      simp [mkTrivialIndexBinding] at hflag
    · simp [createPrimitive, hidx, hq] at hb
      rcases hb with hb | hb
      · rw [hb] at hflag
        simp [mkTrivialIndexBinding] at hflag
      · obtain ⟨a, ha, s, hs⟩ := attrPass2_mem uvmap (n0 + 1) inPrim.attributes 0 b hb
        have hmem : a.data ∈ accessorsOf inPrim := by
          simp [accessorsOf, hidx]
          exact ⟨a, ha, rfl⟩
        obtain ⟨h1, h2, h3, h4⟩ := hacc a.data hmem
        refine ⟨a.data, hmem, ?_, ?_⟩
        · rw [hs, (mkAttrBinding_fields s (n0 + 1) a.data).1]
          exact computeBindingOffset_eq a.data h4
        · rw [hs, (mkAttrBinding_fields s (n0 + 1) a.data).2]
          exact computeBindingSize_eq a.data h1 h2 h3
  | some acc0 =>
    have hmem0 : acc0 ∈ accessorsOf inPrim := by
      simp [accessorsOf, hidx]
    cases hg : getIndexType acc0.componentType with
    | none => simp [createPrimitive, hidx, hg] at hb
    | some w =>
      cases ok
      · simp [createPrimitive, hidx, hg, hq] at hb
        obtain ⟨h1, h2, h3, h4⟩ := hacc acc0 hmem0
        refine ⟨acc0, hmem0, ?_, ?_⟩
        · rw [hb]
          exact computeBindingOffset_eq acc0 h4
        · rw [hb]
          exact computeBindingSize_eq acc0 h1 h2 h3
      · simp [createPrimitive, hidx, hg, hq] at hb
        rcases hb with hb | hb
        · obtain ⟨h1, h2, h3, h4⟩ := hacc acc0 hmem0
          refine ⟨acc0, hmem0, ?_, ?_⟩
          · rw [hb]
            exact computeBindingOffset_eq acc0 h4
          · rw [hb]
            exact computeBindingSize_eq acc0 h1 h2 h3
        · obtain ⟨a, ha, s, hs⟩ := attrPass2_mem uvmap (n0 + 1) inPrim.attributes 0 b hb
          have hmem : a.data ∈ accessorsOf inPrim := by
            simp [accessorsOf, hidx]
            exact Or.inr ⟨a, ha, rfl⟩
          obtain ⟨h1, h2, h3, h4⟩ := hacc a.data hmem
          refine ⟨a.data, hmem, ?_, ?_⟩
          · rw [hs, (mkAttrBinding_fields s (n0 + 1) a.data).1]
            exact computeBindingOffset_eq a.data h4
          · rw [hs, (mkAttrBinding_fields s (n0 + 1) a.data).2]
            exact computeBindingSize_eq a.data h1 h2 h3

/-- A 16-bit-unsigned scalar index accessor with an interleaved
stride. -/
def idx16Acc : Accessor :=
  { posAcc with type := .scalar, componentType := .r_16u, count := 3, stride := 2 }

/-- A triangle primitive with 16-bit indices and one position
attribute. -/
def idx16Prim : Prim := ⟨.triangles, some idx16Acc, [posAttr], none⟩

/-- Witness for **C7** at `idx16Prim`. -/
theorem c7_binding_size_offset_witness :
    (∀ acc ∈ accessorsOf idx16Prim, 1 ≤ acc.count ∧ acc.count < 2 ^ 64 ∧
      acc.stride * (acc.count - 1) + calcSize acc.type acc.componentType < 2 ^ 32 ∧
      acc.offset + acc.bufferView.offset < 2 ^ 32) ∧
    (∀ b ∈ (createPrimitive idx16Prim uvUnused emptyAabb 0).bindings,
      b.generateTrivialIndices = false →
      ∃ acc ∈ accessorsOf idx16Prim,
        b.offset = acc.offset + acc.bufferView.offset ∧
        b.size = acc.stride * (acc.count - 1) + calcSize acc.type acc.componentType) :=
  ⟨by decide, c7_binding_size_offset idx16Prim uvUnused emptyAabb 0 (by decide)⟩

/-! ### Skin resolution lemmas -/

/-- Joint resolution fails exactly when some joint has no node-map
entry. -/
theorem lookupJoints_none_iff (nm : List (Nat × Nat)) :
    ∀ js : List Nat, lookupJoints nm js = none ↔ ∃ j ∈ js, lookupA nm j = none := by
  intro js
  induction js with
  | nil => simp [lookupJoints]
  | cons j rest ih =>
    cases hj : lookupA nm j with
    | none => simp [lookupJoints, hj]
    | some e =>
      cases hr : lookupJoints nm rest with
      | none =>
        simp only [lookupJoints, hj, hr]
        obtain ⟨j', hj', hn⟩ := ih.mp hr
        simp only [true_iff]
        exact ⟨j', List.mem_cons_of_mem _ hj', hn⟩
      | some es =>
        simp only [lookupJoints, hj, hr]
        constructor
        · intro hc; cases hc
        · rintro ⟨j', hj', hn⟩
          rcases List.mem_cons.mp hj' with h | h
          · rw [h, hj] at hn; cases hn
          · have := ih.mpr ⟨j', h, hn⟩
            rw [hr] at this; cases this

/-- A successful joint resolution maps each joint through the node
map. -/
theorem lookupJoints_some_forall2 (nm : List (Nat × Nat)) :
    ∀ js es, lookupJoints nm js = some es →
      List.Forall₂ (fun j e => lookupA nm j = some e) js es := by
  intro js
  induction js with
  | nil =>
    intro es h
    simp [lookupJoints] at h
    subst h
    exact List.Forall₂.nil
  | cons j rest ih =>
    intro es h
    unfold lookupJoints at h
    cases hj : lookupA nm j with
    | none => rw [hj] at h; cases h
    | some e =>
      rw [hj] at h
      cases hr : lookupJoints nm rest with
      | none => rw [hr] at h; cases h
      | some es' =>
        rw [hr] at h
        simp only [Option.some.injEq] at h
        rw [← h]
        exact List.Forall₂.cons hj (ih es' hr)

/-- A skin fails to import exactly when one of its joints was never
visited. -/
theorem importSkinningData_none_iff (nm : List (Nat × Nat)) (s : SkinD) :
    importSkinningData nm s = none ↔ ∃ j ∈ s.joints, lookupA nm j = none := by
  unfold importSkinningData
  cases h : lookupJoints nm s.joints with
  | none => simp [(lookupJoints_none_iff nm s.joints).mp h]
  | some js =>
    constructor
    · intro hc; cases hc
    · rintro ⟨j, hj, hn⟩
      have hnone := (lookupJoints_none_iff nm s.joints).mpr ⟨j, hj, hn⟩
      rw [h] at hnone; cases hnone

/-- The skin phase fails exactly when some skin fails. -/
theorem importAllSkins_none_iff (nm : List (Nat × Nat)) :
    ∀ skins : List SkinD, importAllSkins nm skins = none ↔
      ∃ s ∈ skins, importSkinningData nm s = none := by
  intro skins
  induction skins with
  | nil => simp [importAllSkins]
  | cons s rest ih =>
    cases hs : importSkinningData nm s with
    | none => simp [importAllSkins, hs]
    | some d =>
      cases hr : importAllSkins nm rest with
      | none =>
        simp only [importAllSkins, hs, hr]
        obtain ⟨s', hs', hn⟩ := ih.mp hr
        simp only [true_iff]
        exact ⟨s', List.mem_cons_of_mem _ hs', hn⟩
      | some ds =>
        simp only [importAllSkins, hs, hr]
        constructor
        · intro hc; cases hc
        · rintro ⟨s', hs', hn⟩
          rcases List.mem_cons.mp hs' with h | h
          · rw [h, hs] at hn; cases hn
          · have := ih.mpr ⟨s', h, hn⟩
            rw [hr] at this; cases this

/-- A successful skin phase imports each skin in order. -/
theorem importAllSkins_some_forall2 (nm : List (Nat × Nat)) :
    ∀ skins ds, importAllSkins nm skins = some ds →
      List.Forall₂ (fun s d => importSkinningData nm s = some d) skins ds := by
  intro skins
  induction skins with
  | nil =>
    intro ds h
    simp [importAllSkins] at h
    subst h
    exact List.Forall₂.nil
  | cons s rest ih =>
    intro ds h
    unfold importAllSkins at h
    cases hs : importSkinningData nm s with
    | none => rw [hs] at h; cases h
    | some d =>
      rw [hs] at h
      cases hr : importAllSkins nm rest with
      | none => rw [hr] at h; cases h
      | some ds' =>
        rw [hr] at h
        simp only [Option.some.injEq] at h
        rw [← h]
        exact List.Forall₂.cons hs (ih ds' hr)

/-- `updAt` with a joints-preserving update preserves the joint lists. -/
theorem updAt_map_joints (f : SkinA → SkinA) (hf : ∀ a, (f a).joints = a.joints) :
    ∀ (l : List SkinA) (i : Nat),
      (updAt l i f).map (fun d => d.joints) = l.map (fun d => d.joints) := by
  intro l
  induction l with
  | nil => intro i; rfl
  | cons a rest ih =>
    intro i
    cases i with
    | zero => simp [updAt, hf]
    | succ k => simp [updAt, ih k]

/-- The target loop never touches the joint lists. -/
theorem addSkinTargets_map_joints (nm : List (Nat × Nat)) :
    ∀ (nodes : List (Nat × Option Nat)) (skins : List SkinA),
      (addSkinTargets nm skins nodes).map (fun d => d.joints) =
        skins.map (fun d => d.joints) := by
  intro nodes
  induction nodes with
  | nil => intro skins; rfl
  | cons p rest ih =>
    intro skins
    rcases p with ⟨nid, sk⟩
    cases sk with
    | none => simpa [addSkinTargets] using ih skins
    | some s =>
      have hstep := ih (updAt skins s
        (fun dst => { dst with targets := dst.targets ++ [(lookupA nm nid).getD 0] }))
      simp only [addSkinTargets]
      rw [hstep]
      exact updAt_map_joints
        (fun dst => { dst with targets := dst.targets ++ [(lookupA nm nid).getD 0] })
        (fun a => rfl) skins s

/-- **C8.** Skin joints are resolved only after the whole traversal,
against the final node map: the import throws (fails loudly) exactly
when some skin references a joint node with no entry in the
post-traversal node map; on a successful import the asset's per-skin
joint lists are precisely the skin-phase resolutions, and every
resolved skin maps each source joint through the node map entry-wise. -/
theorem c8_skin_resolution (doc : Doc) (gen : GenF) (roots : List NodeT)
    (hsel : selectedScene doc = some roots)
    (herr : (traverse doc gen roots).error = false) :
    (createAsset doc gen = ImportResult.skinJointMissing ↔
      ∃ s ∈ doc.skins, ∃ j ∈ s.joints,
        lookupA (traverse doc gen roots).nodeMap j = none) ∧
    (∀ a, createAsset doc gen = ImportResult.ok a →
      ∃ ds, importAllSkins (traverse doc gen roots).nodeMap doc.skins = some ds ∧
        a.skins.map (fun d => d.joints) = ds.map (fun d => d.joints)) ∧
    (∀ s d, importSkinningData (traverse doc gen roots).nodeMap s = some d →
      List.Forall₂ (fun j e => lookupA (traverse doc gen roots).nodeMap j = some e)
        s.joints d.joints) := by
  have hca : createAsset doc gen =
      match importAllSkins (traverse doc gen roots).nodeMap doc.skins with
      | none => ImportResult.skinJointMissing
      | some skins => ImportResult.ok
          { traverse doc gen roots with
            skins := addSkinTargets (traverse doc gen roots).nodeMap skins (docNodes doc)
            matCache := []
            meshCache := []
            error := false } := by
    simp [createAsset, hsel, herr]
  refine ⟨?_, ?_, ?_⟩
  · cases himp : importAllSkins (traverse doc gen roots).nodeMap doc.skins with
    | none =>
      rw [himp] at hca
      simp only [hca, true_iff]
      obtain ⟨s, hs, hnone⟩ := (importAllSkins_none_iff _ doc.skins).mp himp
      obtain ⟨j, hj, hn⟩ := (importSkinningData_none_iff _ s).mp hnone
      exact ⟨s, hs, j, hj, hn⟩
    | some ds =>
      rw [himp] at hca
      simp only [hca]
      constructor
      · intro hc; cases hc
      · rintro ⟨s, hs, j, hj, hn⟩
        have h1 : importSkinningData (traverse doc gen roots).nodeMap s = none :=
          (importSkinningData_none_iff _ s).mpr ⟨j, hj, hn⟩
        have h2 : importAllSkins (traverse doc gen roots).nodeMap doc.skins = none :=
          (importAllSkins_none_iff _ doc.skins).mpr ⟨s, hs, h1⟩
        rw [himp] at h2; cases h2
  · intro a ha
    cases himp : importAllSkins (traverse doc gen roots).nodeMap doc.skins with
    | none =>
      rw [himp] at hca
      rw [hca] at ha
      cases ha
    | some ds =>
      rw [himp] at hca
      rw [hca] at ha
      refine ⟨ds, rfl, ?_⟩
      have hrec := ImportResult.ok.inj ha
      rw [← hrec]
      exact addSkinTargets_map_joints _ (docNodes doc) ds
  · intro s d hd
    unfold importSkinningData at hd
    cases hj : lookupJoints (traverse doc gen roots).nodeMap s.joints with
    | none => rw [hj] at hd; cases hd
    | some js =>
      rw [hj] at hd
      simp only [Option.some.injEq] at hd
      rw [← hd]
      exact lookupJoints_some_forall2 _ s.joints js hj

/-- A meshless node with identity transform and node identity 7. -/
def nodeC8 : NodeT := .node 7 idAff none none []

/-- One scene with one node, and one skin whose joint is that node. -/
def docC8 : Doc := ⟨[[nodeC8]], none, [], [], [⟨some "sk", [7]⟩]⟩

/-- Witness for **C8** at `docC8`. -/
theorem c8_skin_resolution_witness :
    (selectedScene docC8 = some [nodeC8] ∧
      (traverse docC8 genId [nodeC8]).error = false) ∧
    ((createAsset docC8 genId = ImportResult.skinJointMissing ↔
      ∃ s ∈ docC8.skins, ∃ j ∈ s.joints,
        lookupA (traverse docC8 genId [nodeC8]).nodeMap j = none) ∧
    (∀ a, createAsset docC8 genId = ImportResult.ok a →
      ∃ ds, importAllSkins (traverse docC8 genId [nodeC8]).nodeMap docC8.skins = some ds ∧
        a.skins.map (fun d => d.joints) = ds.map (fun d => d.joints)) ∧
    (∀ s d, importSkinningData (traverse docC8 genId [nodeC8]).nodeMap s = some d →
      List.Forall₂
        (fun j e => lookupA (traverse docC8 genId [nodeC8]).nodeMap j = some e)
        s.joints d.joints)) :=
  ⟨⟨rfl, by decide⟩, c8_skin_resolution docC8 genId [nodeC8] rfl (by decide)⟩

/-! ### Association-list and mesh-cache slot lemmas -/

theorem lookupA_insertA_self {α : Type} (l : List (Nat × α)) (k : Nat) (v : α) :
    lookupA (insertA l k v) k = some v := by
  induction l with
  | nil => simp [insertA, lookupA]
  | cons e rest ih =>
    by_cases h : e.1 = k
    · simp [insertA, h, lookupA]
    · rcases e with ⟨k', v'⟩
      simp only [insertA, lookupA, if_neg h]
      exact ih

theorem lookupA_insertA_ne {α : Type} (l : List (Nat × α)) (k k' : Nat) (v : α)
    (h : k' ≠ k) : lookupA (insertA l k v) k' = lookupA l k' := by
  have hk' : ¬k = k' := fun hh => h hh.symm
  induction l with
  | nil => simp only [insertA, lookupA, if_neg hk']
  | cons e rest ih =>
    rcases e with ⟨ek, ev⟩
    by_cases he : ek = k
    · subst he
      simp only [insertA, if_pos rfl, lookupA, if_neg hk']
    · simp only [insertA, if_neg he, lookupA]
      by_cases hk : ek = k'
      · rw [if_pos hk, if_pos hk]
      · rw [if_neg hk, if_neg hk]
        exact ih

theorem lookupA_none_iff_not_mem {α : Type} (l : List (Nat × α)) (k : Nat) :
    lookupA l k = none ↔ k ∉ keysA l := by
  induction l with
  | nil => simp [lookupA, keysA]
  | cons e rest ih =>
    rcases e with ⟨ek, ev⟩
    by_cases he : ek = k
    · simp [lookupA, he, keysA]
    · simp only [lookupA, if_neg he, keysA, List.map_cons, List.mem_cons]
      rw [ih]
      constructor
      · rintro hnm (h | h)
        · exact he h.symm
        · exact hnm h
      · intro hnm
        exact fun h => hnm (Or.inr h)

theorem mem_keys_iff_isSome {α : Type} (l : List (Nat × α)) (k : Nat) :
    k ∈ keysA l ↔ (lookupA l k).isSome := by
  cases h : lookupA l k with
  | none => simp [(lookupA_none_iff_not_mem l k).mp h]
  | some v =>
    simp only [Option.isSome_some, iff_true]
    by_contra hnm
    rw [(lookupA_none_iff_not_mem l k).mpr hnm] at h
    cases h

theorem keysA_insertA_new {α : Type} (l : List (Nat × α)) (k : Nat) (v : α)
    (h : lookupA l k = none) : keysA (insertA l k v) = keysA l ++ [k] := by
  induction l with
  | nil => simp [insertA, keysA]
  | cons e rest ih =>
    rcases e with ⟨ek, ev⟩
    by_cases he : ek = k
    · rw [lookupA, if_pos he] at h
      cases h
    · rw [lookupA, if_neg he] at h
      simp only [insertA, if_neg he, keysA, List.map_cons]
      rw [← keysA, ih h, keysA]
      simp

theorem lookupA_map_upd {α : Type} (l : List (Nat × α)) (m k : Nat) (g : α → α) :
    lookupA (l.map (fun e => (e.1, if e.1 = m then g e.2 else e.2))) k =
      if k = m then (lookupA l k).map g else lookupA l k := by
  induction l with
  | nil => simp [lookupA]
  | cons e rest ih =>
    rcases e with ⟨ek, ev⟩
    simp only [List.map_cons]
    by_cases hm : ek = m
    · subst hm
      by_cases hk : ek = k
      · subst hk
        simp [lookupA]
      · have hk2 : ¬k = ek := fun hh => hk hh.symm
        simp only [lookupA, if_neg hk]
        rw [ih, if_neg hk2]
    · by_cases hk : ek = k
      · subst hk
        simp [lookupA, hm]
      · simp only [lookupA, if_neg hk]
        rw [ih]

/-! ### Frame lemmas: what each operation leaves untouched -/

/-- The fields of the loader state that the mesh-cache invariants track,
unchanged between two states. -/
def FrameEq (st st' : LSt) : Prop :=
  st'.meshCache = st.meshCache ∧ st'.geoms = st.geoms ∧
  st'.buildEvents = st.buildEvents ∧ st'.error = st.error ∧
  st'.bbox = st.bbox ∧ st'.renderables = st.renderables

@[simp] theorem setP_meshCache (st : LSt) (mi : Nat) (n : String) (v : MatParamVal) :
    (setP st mi n v).meshCache = st.meshCache := rfl

@[simp] theorem setP_geoms (st : LSt) (mi : Nat) (n : String) (v : MatParamVal) :
    (setP st mi n v).geoms = st.geoms := rfl

@[simp] theorem setP_buildEvents (st : LSt) (mi : Nat) (n : String) (v : MatParamVal) :
    (setP st mi n v).buildEvents = st.buildEvents := rfl

@[simp] theorem setP_error (st : LSt) (mi : Nat) (n : String) (v : MatParamVal) :
    (setP st mi n v).error = st.error := rfl

@[simp] theorem setP_bbox (st : LSt) (mi : Nat) (n : String) (v : MatParamVal) :
    (setP st mi n v).bbox = st.bbox := rfl

@[simp] theorem setP_renderables (st : LSt) (mi : Nat) (n : String) (v : MatParamVal) :
    (setP st mi n v).renderables = st.renderables := rfl

@[simp] theorem addTextureBinding_meshCache (st : LSt) (mi : Nat) (p : String)
    (tex : TextureD) (srgb : Bool) :
    (addTextureBinding st mi p tex srgb).meshCache = st.meshCache := by
  unfold addTextureBinding; split <;> rfl

@[simp] theorem addTextureBinding_geoms (st : LSt) (mi : Nat) (p : String)
    (tex : TextureD) (srgb : Bool) :
    (addTextureBinding st mi p tex srgb).geoms = st.geoms := by
  unfold addTextureBinding; split <;> rfl

@[simp] theorem addTextureBinding_buildEvents (st : LSt) (mi : Nat) (p : String)
    (tex : TextureD) (srgb : Bool) :
    (addTextureBinding st mi p tex srgb).buildEvents = st.buildEvents := by
  unfold addTextureBinding; split <;> rfl

@[simp] theorem addTextureBinding_error (st : LSt) (mi : Nat) (p : String)
    (tex : TextureD) (srgb : Bool) :
    (addTextureBinding st mi p tex srgb).error = st.error := by
  unfold addTextureBinding; split <;> rfl

@[simp] theorem addTextureBinding_bbox (st : LSt) (mi : Nat) (p : String)
    (tex : TextureD) (srgb : Bool) :
    (addTextureBinding st mi p tex srgb).bbox = st.bbox := by
  unfold addTextureBinding; split <;> rfl

@[simp] theorem addTextureBinding_renderables (st : LSt) (mi : Nat) (p : String)
    (tex : TextureD) (srgb : Bool) :
    (addTextureBinding st mi p tex srgb).renderables = st.renderables := by
  unfold addTextureBinding; split <;> rfl

@[simp] theorem texSlotStep_meshCache (st : LSt) (mi : Nat) (flag hasTT : Bool)
    (mapName uvName : String) (slot : TexView) (srgb : Bool) :
    (texSlotStep st mi flag hasTT mapName uvName slot srgb).meshCache = st.meshCache := by
  unfold texSlotStep; split_ifs <;> simp

@[simp] theorem texSlotStep_geoms (st : LSt) (mi : Nat) (flag hasTT : Bool)
    (mapName uvName : String) (slot : TexView) (srgb : Bool) :
    (texSlotStep st mi flag hasTT mapName uvName slot srgb).geoms = st.geoms := by
  unfold texSlotStep; split_ifs <;> simp

@[simp] theorem texSlotStep_buildEvents (st : LSt) (mi : Nat) (flag hasTT : Bool)
    (mapName uvName : String) (slot : TexView) (srgb : Bool) :
    (texSlotStep st mi flag hasTT mapName uvName slot srgb).buildEvents = st.buildEvents := by
  unfold texSlotStep; split_ifs <;> simp

@[simp] theorem texSlotStep_error (st : LSt) (mi : Nat) (flag hasTT : Bool)
    (mapName uvName : String) (slot : TexView) (srgb : Bool) :
    (texSlotStep st mi flag hasTT mapName uvName slot srgb).error = st.error := by
  unfold texSlotStep; split_ifs <;> simp

@[simp] theorem texSlotStep_bbox (st : LSt) (mi : Nat) (flag hasTT : Bool)
    (mapName uvName : String) (slot : TexView) (srgb : Bool) :
    (texSlotStep st mi flag hasTT mapName uvName slot srgb).bbox = st.bbox := by
  unfold texSlotStep; split_ifs <;> simp

@[simp] theorem texSlotStep_renderables (st : LSt) (mi : Nat) (flag hasTT : Bool)
    (mapName uvName : String) (slot : TexView) (srgb : Bool) :
    (texSlotStep st mi flag hasTT mapName uvName slot srgb).renderables = st.renderables := by
  unfold texSlotStep; split_ifs <;> simp

/-- Creating or fetching a material instance never touches the mesh
cache, the geometry calls, the build events, the error flag, the
bounding box, or the renderable list. -/
theorem cmi_frame (doc : Doc) (gen : GenF) (st : LSt) (im : Option Nat) (vc : Bool) :
    FrameEq st (createMaterialInstance doc gen st im vc).1 := by
  unfold createMaterialInstance
  dsimp only
  split
  next => exact ⟨rfl, rfl, rfl, rfl, rfl, rfl⟩
  next =>
    split
    next => exact ⟨rfl, rfl, rfl, rfl, rfl, rfl⟩
    next => refine ⟨?_, ?_, ?_, ?_, ?_, ?_⟩ <;> simp

/-! ### The traversal invariant -/

/-- The fold that seeds a primitive's object-space box from its
position accessors, starting from `b`. -/
def posFold (attrs : List Attribute) (b : AabbQ) : AabbQ :=
  attrs.foldl
    (fun bb a => if a.type = AttribType.position then expandPosAabb bb a.data else bb) b

/-- `primAabbSpec` is `posFold` from the empty box. -/
theorem primAabbSpec_eq_posFold (pr : Prim) :
    primAabbSpec pr = posFold pr.attributes emptyAabb := rfl

/-- A fully built mesh-cache slot: both buffers present and the
object-space box equal to the primitive's specified box. -/
def SlotGood (doc : Doc) (m p : Nat) (pr : PrimRec) : Prop :=
  pr.vertices.isSome = true ∧ pr.indices.isSome = true ∧
  pr.aabb = primAabbSpec (primAt doc m p)

/-- The boundary invariant of the loader state over the mesh cache, the
geometry calls and the build events. -/
structure CoreInv (doc : Doc) (st : LSt) : Prop where
  cacheLen : ∀ m prims, lookupA st.meshCache m = some prims →
    prims.length = (meshPrims doc m).length
  keysNodup : (keysA st.meshCache).Nodup
  geomsOK : ∀ g ∈ st.geoms, ∃ pr, slotOf st g.mesh g.prim = some pr ∧
    pr.vertices = some g.vertices ∧ pr.indices = some g.indices
  buildIff : ∀ m p, (m, p) ∈ st.buildEvents ↔
    ∃ pr, slotOf st m p = some pr ∧ pr.vertices.isSome = true
  buildNodup : st.buildEvents.Nodup
  viPair : ∀ m p pr, slotOf st m p = some pr → pr.vertices.isSome = true →
    pr.indices.isSome = true

/-- Mid-loop slot condition: when the error flag is clear, every slot is
either fully built or a still-default slot of the mesh currently being
processed whose index is still pending. -/
def MidSlots (doc : Doc) (m : Nat) (ps : List Nat) (st : LSt) : Prop :=
  st.error = false → ∀ m' p pr, slotOf st m' p = some pr →
    SlotGood doc m' p pr ∨ (m' = m ∧ p ∈ ps ∧ pr = defPrimRec)

/-- The full boundary invariant: the core invariant plus, when the
error flag is clear, every existing slot fully built. -/
def TravInv (doc : Doc) (st : LSt) : Prop :=
  CoreInv doc st ∧ MidSlots doc 0 [] st

theorem slotOf_congr {st st' : LSt} (h : st'.meshCache = st.meshCache) (m p : Nat) :
    slotOf st' m p = slotOf st m p := by
  unfold slotOf
  rw [h]

theorem option_eq_some_getD {α : Type} (o : Option α) (d : α)
    (h : o.isSome = true) : o = some (o.getD d) := by
  cases o with
  | none => cases h
  | some v => rfl

/-- A successful `createPrimitive` leaves the position fold of all
attributes in the output box. -/
theorem attrPass1_true_aabb (uvmap : UvMap) :
    ∀ (attrs : List Attribute) (b : AabbQ),
      (attrPass1 uvmap attrs b).2 = true →
      (attrPass1 uvmap attrs b).1 = posFold attrs b := by
  intro attrs
  induction attrs with
  | nil => intro b _; rfl
  | cons a rest ih =>
    intro b hb
    unfold attrPass1 at hb ⊢
    by_cases h1 : a.type = AttribType.normal
    · have hnp : ¬a.type = AttribType.position := by rw [h1]; intro hc; cases hc
      rw [if_pos h1] at hb ⊢
      rw [ih b hb]
      unfold posFold
      rw [List.foldl_cons, if_neg hnp]
    · rw [if_neg h1] at hb ⊢
      by_cases h2 : a.type = AttribType.tangent
      · have hnp : ¬a.type = AttribType.position := by rw [h2]; intro hc; cases hc
        rw [if_pos h2] at hb ⊢
        rw [ih b hb]
        unfold posFold
        rw [List.foldl_cons, if_neg hnp]
      · rw [if_neg h2] at hb ⊢
        by_cases h3 : getVertexAttrType a.type = false
        · rw [if_pos h3] at hb; cases hb
        · rw [if_neg h3] at hb ⊢
          by_cases h4 : a.type = AttribType.texcoord ∧ uvmap a.index = UvSet.unused
          · have hnp : ¬a.type = AttribType.position := by rw [h4.1]; intro hc; cases hc
            rw [if_pos h4] at hb ⊢
            rw [ih b hb]
            unfold posFold
            rw [List.foldl_cons, if_neg hnp]
          · rw [if_neg h4] at hb ⊢
            by_cases h5 : getElementType a.data.type a.data.componentType = false
            · rw [if_pos h5] at hb; cases hb
            · rw [if_neg h5] at hb ⊢
              by_cases h6 : a.data.isSparse
              · rw [if_pos h6] at hb; cases hb
              · rw [if_neg h6] at hb ⊢
                rw [ih _ hb]
                unfold posFold
                rw [List.foldl_cons]

/-- A successful `createPrimitive` reports the position fold of the
input box as the primitive's object-space box. -/
theorem createPrimitive_success_aabb (inPrim : Prim) (uvmap : UvMap) (b0 : AabbQ)
    (n0 : Nat) (bp : Nat × Nat)
    (h : (createPrimitive inPrim uvmap b0 n0).buffers = some bp) :
    (createPrimitive inPrim uvmap b0 n0).outAabb = posFold inPrim.attributes b0 := by
  unfold createPrimitive at h ⊢
  rcases hq : attrPass1 uvmap inPrim.attributes b0 with ⟨bb, ok⟩
  rw [hq] at h
  have hbb : ok = true → bb = posFold inPrim.attributes b0 := by
    intro hok
    have hx := attrPass1_true_aabb uvmap inPrim.attributes b0
    rw [hq] at hx
    exact hx hok
  cases hidx : inPrim.indices with
  | none =>
    rw [hidx] at h
    dsimp only at h ⊢
    cases ok with
    | false => cases h
    | true => exact hbb rfl
  | some acc =>
    rw [hidx] at h
    dsimp only at h ⊢
    cases hg : getIndexType acc.componentType with
    | none =>
      rw [hg] at h
      cases h
    | some w =>
      rw [hg] at h
      dsimp only at h ⊢
      cases ok with
      | false => cases h
      | true => exact hbb rfl

/-! ### Mesh-cache slot update lemmas -/

theorem slotOf_setMeshSlot (st : LSt) (m p m' p' : Nat) (pr : PrimRec) :
    slotOf (setMeshSlot st m p pr) m' p' =
      if m' = m
      then (lookupA st.meshCache m').bind (fun prims => (prims.set p pr).get? p')
      else slotOf st m' p' := by
  unfold slotOf setMeshSlot
  dsimp only
  rw [lookupA_map_upd st.meshCache m m' (fun prims => prims.set p pr)]
  by_cases h : m' = m
  · rw [if_pos h, if_pos h]
    cases lookupA st.meshCache m' <;> rfl
  · rw [if_neg h, if_neg h]

theorem setMeshSlot_keysA (st : LSt) (m p : Nat) (pr : PrimRec) :
    keysA (setMeshSlot st m p pr).meshCache = keysA st.meshCache := by
  unfold setMeshSlot keysA
  dsimp only
  rw [List.map_map]
  rfl

@[simp] theorem setMeshSlot_geoms (st : LSt) (m p : Nat) (pr : PrimRec) :
    (setMeshSlot st m p pr).geoms = st.geoms := rfl

@[simp] theorem setMeshSlot_buildEvents (st : LSt) (m p : Nat) (pr : PrimRec) :
    (setMeshSlot st m p pr).buildEvents = st.buildEvents := rfl

@[simp] theorem setMeshSlot_error (st : LSt) (m p : Nat) (pr : PrimRec) :
    (setMeshSlot st m p pr).error = st.error := rfl

@[simp] theorem setMeshSlot_bbox (st : LSt) (m p : Nat) (pr : PrimRec) :
    (setMeshSlot st m p pr).bbox = st.bbox := rfl

@[simp] theorem setMeshSlot_renderables (st : LSt) (m p : Nat) (pr : PrimRec) :
    (setMeshSlot st m p pr).renderables = st.renderables := rfl

theorem setMeshSlot_cacheLen (st : LSt) (m p : Nat) (pr : PrimRec) (m'' : Nat)
    (prims' : List PrimRec)
    (h : lookupA (setMeshSlot st m p pr).meshCache m'' = some prims') :
    ∃ prims0, lookupA st.meshCache m'' = some prims0 ∧ prims'.length = prims0.length := by
  have hm : (setMeshSlot st m p pr).meshCache =
      st.meshCache.map (fun e => (e.1, if e.1 = m then e.2.set p pr else e.2)) := rfl
  rw [hm, lookupA_map_upd st.meshCache m m'' (fun prims => prims.set p pr)] at h
  by_cases hk : m'' = m
  · rw [if_pos hk] at h
    cases hl : lookupA st.meshCache m'' with
    | none => rw [hl] at h; cases h
    | some prims0 =>
      rw [hl] at h
      simp only [Option.map_some', Option.some.injEq] at h
      exact ⟨prims0, rfl, by rw [← h]; exact List.length_set ..⟩
  · rw [if_neg hk] at h
    exact ⟨prims', h, rfl⟩

/-- No geometry call can reference a slot whose buffers are not yet
built. -/
theorem no_geom_at_unbuilt {doc : Doc} {st : LSt} (hcore : CoreInv doc st)
    {m p : Nat} {pr0 : PrimRec} (hslot0 : slotOf st m p = some pr0)
    (hv : pr0.vertices = none) :
    ∀ g ∈ st.geoms, ¬(g.mesh = m ∧ g.prim = p) := by
  rintro g hg ⟨hm, hp⟩
  obtain ⟨pr, hpr, hprv, _⟩ := hcore.geomsOK g hg
  rw [hm, hp, hslot0] at hpr
  cases hpr
  rw [hv] at hprv
  cases hprv

/-- The cache-hit branch of the primitive loop body: the slot is
already built, so only a geometry call is recorded. -/
theorem primStep_hit (doc : Doc) (m p : Nat) (ps : List Nat) (acc : AabbQ)
    (stOrig st0 stH : LSt) (pr0 : PrimRec) (v : Nat) (ok : Bool)
    (hH : stH = { st0 with geoms := st0.geoms ++ [geomFor m p ok pr0] })
    (hFrame : FrameEq stOrig st0)
    (hcore : CoreInv doc stOrig)
    (hmid : MidSlots doc m (p :: ps) stOrig)
    (hslot0 : slotOf stOrig m p = some pr0)
    (hv : pr0.vertices = some v) :
    CoreInv doc stH ∧ MidSlots doc m ps stH ∧
    keysA stH.meshCache = keysA stOrig.meshCache ∧
    stH.renderables = stOrig.renderables ∧
    stH.bbox = stOrig.bbox ∧
    (stOrig.error = true → stH.error = true) ∧
    (stH.error = false → stOrig.error = false ∧
      unionAabb pr0.aabb acc = unionAabb (primAabbSpec (primAt doc m p)) acc) := by
  obtain ⟨fmc, fgeoms, fbuild, ferr, fbbox, frend⟩ := hFrame
  have hmcH : stH.meshCache = stOrig.meshCache := by rw [hH]; exact fmc
  have hslotH : ∀ a b, slotOf stH a b = slotOf stOrig a b :=
    fun a b => slotOf_congr hmcH a b
  have hgeomsH : stH.geoms = stOrig.geoms ++ [geomFor m p ok pr0] := by
    rw [hH]; dsimp only; rw [fgeoms]
  have hbuildH : stH.buildEvents = stOrig.buildEvents := by rw [hH]; exact fbuild
  have herrH : stH.error = stOrig.error := by rw [hH]; exact ferr
  refine ⟨?_, ?_, ?_, ?_, ?_, ?_, ?_⟩
  · refine ⟨?_, ?_, ?_, ?_, ?_, ?_⟩
    · intro m'' prims h
      rw [hmcH] at h
      exact hcore.cacheLen m'' prims h
    · rw [hmcH]
      exact hcore.keysNodup
    · intro g hg
      rw [hgeomsH] at hg
      rcases List.mem_append.mp hg with hgo | hgn
      · obtain ⟨pr, h1, h2, h3⟩ := hcore.geomsOK g hgo
        exact ⟨pr, by rw [hslotH]; exact h1, h2, h3⟩
      · have hgeq : g = geomFor m p ok pr0 := by simpa using hgn
        subst hgeq
        refine ⟨pr0, by rw [hslotH]; exact hslot0, by simp [geomFor, hv], ?_⟩
        have hi : pr0.indices.isSome = true :=
          hcore.viPair m p pr0 hslot0 (by rw [hv]; rfl)
        exact option_eq_some_getD pr0.indices 0 hi
    · intro m'' p''
      rw [hbuildH]
      constructor
      · intro hmem
        obtain ⟨pr, h1, h2⟩ := (hcore.buildIff m'' p'').mp hmem
        exact ⟨pr, by rw [hslotH]; exact h1, h2⟩
      · rintro ⟨pr, h1, h2⟩
        rw [hslotH] at h1
        exact (hcore.buildIff m'' p'').mpr ⟨pr, h1, h2⟩
    · rw [hbuildH]
      exact hcore.buildNodup
    · intro m'' p'' pr h1 h2
      rw [hslotH] at h1
      exact hcore.viPair m'' p'' pr h1 h2
  · intro herr m' p' pr hslot
    rw [herrH] at herr
    rw [hslotH] at hslot
    rcases hmid herr m' p' pr hslot with hgood | ⟨hm', hp', hdef⟩
    · exact Or.inl hgood
    · rcases List.mem_cons.mp hp' with hpp | hpp
      · exfalso
        rw [hm', hpp, hslot0] at hslot
        cases hslot
        rw [hdef] at hv
        cases hv
      · exact Or.inr ⟨hm', hpp, hdef⟩
  · rw [hmcH]
  · rw [hH]; exact frend
  · rw [hH]; exact fbbox
  · intro h
    rw [herrH]
    exact h
  · intro h
    rw [herrH] at h
    refine ⟨h, ?_⟩
    rcases hmid h m p pr0 hslot0 with ⟨_, _, ha⟩ | ⟨_, _, hdef⟩
    · rw [ha]
    · rw [hdef] at hv
      cases hv

/-- The build-failure branch of the primitive loop body: the partially
expanded box is written back to the slot, the error flag is set, and
the primitive is skipped. -/
theorem primStep_fail (doc : Doc) (m p : Nat) (ps : List Nat)
    (stOrig st0 stF : LSt) (pr0 : PrimRec) (c : Nat) (nb : List BufferBinding)
    (na : AabbQ)
    (hF0 : stF = { setMeshSlot
        { st0 with counter := c, bufferBindings := st0.bufferBindings ++ nb }
        m p { vertices := none, indices := pr0.indices, aabb := na } with error := true })
    (hFrame : FrameEq stOrig st0)
    (hcore : CoreInv doc stOrig)
    (hslot0 : slotOf stOrig m p = some pr0)
    (hv : pr0.vertices = none) :
    CoreInv doc stF ∧ MidSlots doc m ps stF ∧
    keysA stF.meshCache = keysA stOrig.meshCache ∧
    stF.renderables = stOrig.renderables ∧
    stF.bbox = stOrig.bbox ∧
    stF.error = true := by
  have hF : stF = { setMeshSlot
      { st0 with counter := c, bufferBindings := st0.bufferBindings ++ nb }
      m p { pr0 with aabb := na } with error := true } := by
    rw [hF0]
    have hpr : ({ vertices := none, indices := pr0.indices, aabb := na } : PrimRec)
        = { pr0 with aabb := na } := by
      rw [← hv]
    rw [hpr]
  obtain ⟨fmc, fgeoms, fbuild, ferr, fbbox, frend⟩ := hFrame
  have hmcF : stF.meshCache =
      st0.meshCache.map
        (fun e => (e.1, if e.1 = m then e.2.set p { pr0 with aabb := na } else e.2)) := by
    rw [hF]; rfl
  have hslotF : ∀ a b, slotOf stF a b =
      if a = m
      then (lookupA stOrig.meshCache a).bind
        (fun prims => (prims.set p { pr0 with aabb := na }).get? b)
      else slotOf stOrig a b := by
    intro a b
    unfold slotOf
    rw [hmcF, lookupA_map_upd st0.meshCache m a
      (fun prims => prims.set p { pr0 with aabb := na }), fmc]
    by_cases ha : a = m
    · rw [if_pos ha, if_pos ha]
      cases lookupA stOrig.meshCache a <;> rfl
    · rw [if_neg ha, if_neg ha]
  obtain ⟨prims, hl, hget⟩ : ∃ prims, lookupA stOrig.meshCache m = some prims ∧
      prims.get? p = some pr0 := by
    unfold slotOf at hslot0
    cases hl : lookupA stOrig.meshCache m with
    | none => rw [hl] at hslot0; cases hslot0
    | some prims =>
      rw [hl] at hslot0
      exact ⟨prims, rfl, hslot0⟩
  obtain ⟨hplen, -⟩ := List.get?_eq_some.mp hget
  have hslotFp : slotOf stF m p = some { pr0 with aabb := na } := by
    rw [hslotF m p, if_pos rfl, hl]
    simp only [Option.some_bind]
    exact List.get?_set_eq_of_lt _ hplen
  have hslotF' : ∀ a b, ¬(a = m ∧ b = p) → slotOf stF a b = slotOf stOrig a b := by
    intro a b hab
    rw [hslotF a b]
    by_cases ha : a = m
    · rw [if_pos ha]
      have hbp : p ≠ b := fun h => hab ⟨ha, h.symm⟩
      unfold slotOf
      cases hl2 : lookupA stOrig.meshCache a with
      | none => rfl
      | some prims2 =>
        simp only [Option.some_bind]
        exact List.get?_set_ne _ _ hbp
    · rw [if_neg ha]
  have hgeomsF : stF.geoms = stOrig.geoms := by rw [hF]; simp [fgeoms]
  have hbuildF : stF.buildEvents = stOrig.buildEvents := by rw [hF]; simp [fbuild]
  have herrF : stF.error = true := by rw [hF]
  refine ⟨?_, ?_, ?_, ?_, ?_, herrF⟩
  · refine ⟨?_, ?_, ?_, ?_, ?_, ?_⟩
    · intro m'' prims'' h
      rw [hmcF, lookupA_map_upd st0.meshCache m m''
        (fun prims => prims.set p { pr0 with aabb := na }), fmc] at h
      by_cases hk : m'' = m
      · rw [if_pos hk] at h
        cases hl2 : lookupA stOrig.meshCache m'' with
        | none => rw [hl2] at h; cases h
        | some prims0 =>
          rw [hl2] at h
          simp only [Option.map_some', Option.some.injEq] at h
          rw [← h, List.length_set]
          exact hcore.cacheLen m'' prims0 hl2
      · rw [if_neg hk] at h
        exact hcore.cacheLen m'' prims'' h
    · have : keysA stF.meshCache = keysA stOrig.meshCache := by
        rw [hmcF]
        unfold keysA
        rw [List.map_map, ← fmc]
        rfl
      rw [this]
      exact hcore.keysNodup
    · intro g hg
      rw [hgeomsF] at hg
      obtain ⟨pr, h1, h2, h3⟩ := hcore.geomsOK g hg
      have hne : ¬(g.mesh = m ∧ g.prim = p) := no_geom_at_unbuilt hcore hslot0 hv g hg
      exact ⟨pr, by rw [hslotF' _ _ hne]; exact h1, h2, h3⟩
    · intro m'' p''
      rw [hbuildF]
      by_cases h : m'' = m ∧ p'' = p
      · obtain ⟨hm'', hp''⟩ := h
        subst hm''; subst hp''
        constructor
        · intro hmem
          obtain ⟨pr, h1, h2⟩ := (hcore.buildIff m'' p'').mp hmem
          rw [hslot0] at h1
          cases h1
          rw [hv] at h2
          cases h2
        · rintro ⟨pr, h1, h2⟩
          rw [hslotFp] at h1
          cases h1
          rw [(rfl : ({ pr0 with aabb := na } : PrimRec).vertices = pr0.vertices), hv] at h2
          cases h2
      · constructor
        · intro hmem
          obtain ⟨pr, h1, h2⟩ := (hcore.buildIff m'' p'').mp hmem
          exact ⟨pr, by rw [hslotF' _ _ h]; exact h1, h2⟩
        · rintro ⟨pr, h1, h2⟩
          rw [hslotF' _ _ h] at h1
          exact (hcore.buildIff m'' p'').mpr ⟨pr, h1, h2⟩
    · rw [hbuildF]
      exact hcore.buildNodup
    · intro m'' p'' pr h1 h2
      by_cases h : m'' = m ∧ p'' = p
      · obtain ⟨hm'', hp''⟩ := h
        subst hm''; subst hp''
        rw [hslotFp] at h1
        cases h1
        rw [(rfl : ({ pr0 with aabb := na } : PrimRec).vertices = pr0.vertices), hv] at h2
        cases h2
      · rw [hslotF' _ _ h] at h1
        exact hcore.viPair m'' p'' pr h1 h2
  · intro herr
    rw [herrF] at herr
    cases herr
  · rw [hmcF]
    unfold keysA
    rw [List.map_map, ← fmc]
    rfl
  · rw [hF]; simp [frend]
  · rw [hF]; simp [fbbox]

/-- The build-success branch of the primitive loop body: the slot is
filled with the fresh buffers and the computed box, a build event and a
geometry call are recorded. -/
theorem primStep_build (doc : Doc) (m p : Nat) (ps : List Nat) (acc : AabbQ)
    (stOrig st0 stS : LSt) (pr0 : PrimRec) (c v ix : Nat)
    (nb : List BufferBinding) (na : AabbQ) (ok : Bool)
    (hS : stS = { setMeshSlot
        { st0 with counter := c, bufferBindings := st0.bufferBindings ++ nb }
        m p { vertices := some v, indices := some ix, aabb := na } with
      buildEvents := (setMeshSlot
        { st0 with counter := c, bufferBindings := st0.bufferBindings ++ nb }
        m p { vertices := some v, indices := some ix, aabb := na }).buildEvents ++ [(m, p)]
      geoms := (setMeshSlot
        { st0 with counter := c, bufferBindings := st0.bufferBindings ++ nb }
        m p { vertices := some v, indices := some ix, aabb := na }).geoms ++
        [geomFor m p ok { vertices := some v, indices := some ix, aabb := na }] })
    (hFrame : FrameEq stOrig st0)
    (hcore : CoreInv doc stOrig)
    (hmid : MidSlots doc m (p :: ps) stOrig)
    (hslot0 : slotOf stOrig m p = some pr0)
    (hv : pr0.vertices = none)
    (hna : pr0.aabb = emptyAabb → na = primAabbSpec (primAt doc m p)) :
    CoreInv doc stS ∧ MidSlots doc m ps stS ∧
    keysA stS.meshCache = keysA stOrig.meshCache ∧
    stS.renderables = stOrig.renderables ∧
    stS.bbox = stOrig.bbox ∧
    (stOrig.error = true → stS.error = true) ∧
    (stS.error = false → stOrig.error = false ∧
      unionAabb na acc = unionAabb (primAabbSpec (primAt doc m p)) acc) := by
  obtain ⟨fmc, fgeoms, fbuild, ferr, fbbox, frend⟩ := hFrame
  have hmcS : stS.meshCache =
      st0.meshCache.map
        (fun e => (e.1, if e.1 = m
          then e.2.set p { vertices := some v, indices := some ix, aabb := na }
          else e.2)) := by
    rw [hS]; rfl
  have hslotS : ∀ a b, slotOf stS a b =
      if a = m
      then (lookupA stOrig.meshCache a).bind
        (fun prims =>
          (prims.set p { vertices := some v, indices := some ix, aabb := na }).get? b)
      else slotOf stOrig a b := by
    intro a b
    unfold slotOf
    rw [hmcS, lookupA_map_upd st0.meshCache m a
      (fun prims => prims.set p { vertices := some v, indices := some ix, aabb := na }),
      fmc]
    by_cases ha : a = m
    · rw [if_pos ha, if_pos ha]
      cases lookupA stOrig.meshCache a <;> rfl
    · rw [if_neg ha, if_neg ha]
  obtain ⟨prims, hl, hget⟩ : ∃ prims, lookupA stOrig.meshCache m = some prims ∧
      prims.get? p = some pr0 := by
    unfold slotOf at hslot0
    cases hl : lookupA stOrig.meshCache m with
    | none => rw [hl] at hslot0; cases hslot0
    | some prims =>
      rw [hl] at hslot0
      exact ⟨prims, rfl, hslot0⟩
  obtain ⟨hplen, -⟩ := List.get?_eq_some.mp hget
  have hslotSp : slotOf stS m p =
      some { vertices := some v, indices := some ix, aabb := na } := by
    rw [hslotS m p, if_pos rfl, hl]
    simp only [Option.some_bind]
    exact List.get?_set_eq_of_lt _ hplen
  have hslotS' : ∀ a b, ¬(a = m ∧ b = p) → slotOf stS a b = slotOf stOrig a b := by
    intro a b hab
    rw [hslotS a b]
    by_cases ha : a = m
    · rw [if_pos ha]
      have hbp : p ≠ b := fun h => hab ⟨ha, h.symm⟩
      unfold slotOf
      cases hl2 : lookupA stOrig.meshCache a with
      | none => rfl
      | some prims2 =>
        simp only [Option.some_bind]
        exact List.get?_set_ne _ _ hbp
    · rw [if_neg ha]
  have hgeomsS : stS.geoms = stOrig.geoms ++
      [geomFor m p ok { vertices := some v, indices := some ix, aabb := na }] := by
    rw [hS]; simp [fgeoms]
  have hbuildS : stS.buildEvents = stOrig.buildEvents ++ [(m, p)] := by
    rw [hS]; simp [fbuild]
  have herrS : stS.error = stOrig.error := by rw [hS]; simp [ferr]
  have hnotmem : (m, p) ∉ stOrig.buildEvents := by
    intro hmem
    obtain ⟨pr, h1, h2⟩ := (hcore.buildIff m p).mp hmem
    rw [hslot0] at h1
    cases h1
    rw [hv] at h2
    cases h2
  have hkeysS : keysA stS.meshCache = keysA stOrig.meshCache := by
    rw [hmcS]
    unfold keysA
    rw [List.map_map, ← fmc]
    rfl
  have hpr0def : stOrig.error = false → pr0 = defPrimRec := by
    intro herr
    rcases hmid herr m p pr0 hslot0 with ⟨hg, -, -⟩ | ⟨-, -, hdef⟩
    · rw [hv] at hg; cases hg
    · exact hdef
  refine ⟨?_, ?_, hkeysS, ?_, ?_, ?_, ?_⟩
  · refine ⟨?_, ?_, ?_, ?_, ?_, ?_⟩
    · intro m'' prims'' h
      rw [hmcS, lookupA_map_upd st0.meshCache m m''
        (fun prims => prims.set p { vertices := some v, indices := some ix, aabb := na }),
        fmc] at h
      by_cases hk : m'' = m
      · rw [if_pos hk] at h
        cases hl2 : lookupA stOrig.meshCache m'' with
        | none => rw [hl2] at h; cases h
        | some prims0 =>
          rw [hl2] at h
          simp only [Option.map_some', Option.some.injEq] at h
          rw [← h, List.length_set]
          exact hcore.cacheLen m'' prims0 hl2
      · rw [if_neg hk] at h
        exact hcore.cacheLen m'' prims'' h
    · rw [hkeysS]
      exact hcore.keysNodup
    · intro g hg
      rw [hgeomsS] at hg
      rcases List.mem_append.mp hg with hgo | hgn
      · obtain ⟨pr, h1, h2, h3⟩ := hcore.geomsOK g hgo
        have hne : ¬(g.mesh = m ∧ g.prim = p) := no_geom_at_unbuilt hcore hslot0 hv g hgo
        exact ⟨pr, by rw [hslotS' _ _ hne]; exact h1, h2, h3⟩
      · have hgeq : g = geomFor m p ok
            { vertices := some v, indices := some ix, aabb := na } := by simpa using hgn
        subst hgeq
        exact ⟨{ vertices := some v, indices := some ix, aabb := na }, hslotSp, rfl, rfl⟩
    · intro m'' p''
      rw [hbuildS]
      by_cases h : m'' = m ∧ p'' = p
      · obtain ⟨hm'', hp''⟩ := h
        subst hm''; subst hp''
        constructor
        · intro _
          exact ⟨{ vertices := some v, indices := some ix, aabb := na }, hslotSp, rfl⟩
        · intro _
          exact List.mem_append_right _ (by simp)
      · have hne : (m'', p'') ≠ (m, p) := by
          intro hc
          rw [Prod.mk.injEq] at hc
          exact h hc
        constructor
        · intro hmem
          rcases List.mem_append.mp hmem with hmem | hmem
          · obtain ⟨pr, h1, h2⟩ := (hcore.buildIff m'' p'').mp hmem
            exact ⟨pr, by rw [hslotS' _ _ h]; exact h1, h2⟩
          · exfalso
            exact hne (by simpa using hmem)
        · rintro ⟨pr, h1, h2⟩
          rw [hslotS' _ _ h] at h1
          exact List.mem_append_left _ ((hcore.buildIff m'' p'').mpr ⟨pr, h1, h2⟩)
    · rw [hbuildS]
      refine List.Nodup.append hcore.buildNodup (List.nodup_singleton _) ?_
      intro x hx hy
      simp only [List.mem_singleton] at hy
      subst hy
      exact hnotmem hx
    · intro m'' p'' pr h1 h2
      by_cases h : m'' = m ∧ p'' = p
      · obtain ⟨hm'', hp''⟩ := h
        subst hm''; subst hp''
        rw [hslotSp] at h1
        cases h1
        rfl
      · rw [hslotS' _ _ h] at h1
        exact hcore.viPair m'' p'' pr h1 h2
  · intro herr m' p' pr hslot
    rw [herrS] at herr
    by_cases h : m' = m ∧ p' = p
    · obtain ⟨hm', hp'⟩ := h
      subst hm'; subst hp'
      rw [hslotSp] at hslot
      cases hslot
      refine Or.inl ⟨rfl, rfl, ?_⟩
      have hdef := hpr0def herr
      exact hna (by rw [hdef]; rfl)
    · rw [hslotS' _ _ h] at hslot
      rcases hmid herr m' p' pr hslot with hgood | ⟨hm', hp', hdef⟩
      · exact Or.inl hgood
      · rcases List.mem_cons.mp hp' with hpp | hpp
        · exact absurd ⟨hm', hpp⟩ h
        · exact Or.inr ⟨hm', hpp, hdef⟩
  · rw [hS]; simp [frend]
  · rw [hS]; simp [fbbox]
  · intro h
    rw [herrS]
    exact h
  · intro herr
    rw [herrS] at herr
    refine ⟨herr, ?_⟩
    rw [hna (by rw [hpr0def herr]; rfl)]

/-- The combined specification of one primitive-loop iteration. -/
theorem primStep_spec (doc : Doc) (gen : GenF) (m : Nat) (ps : List Nat) (p : Nat)
    (st : LSt) (acc : AabbQ)
    (hcore : CoreInv doc st)
    (hmid : MidSlots doc m (p :: ps) st)
    (hp : p < (meshPrims doc m).length)
    (hent : (lookupA st.meshCache m).isSome = true) :
    CoreInv doc (primStep doc gen m st acc p).1 ∧
    MidSlots doc m ps (primStep doc gen m st acc p).1 ∧
    keysA (primStep doc gen m st acc p).1.meshCache = keysA st.meshCache ∧
    (primStep doc gen m st acc p).1.renderables = st.renderables ∧
    (primStep doc gen m st acc p).1.bbox = st.bbox ∧
    (st.error = true → (primStep doc gen m st acc p).1.error = true) ∧
    ((primStep doc gen m st acc p).1.error = false →
      st.error = false ∧
      (primStep doc gen m st acc p).2 =
        unionAabb (primAabbSpec (primAt doc m p)) acc) := by
  have hframe := cmi_frame doc gen st (primAt doc m p).material
    (primitiveHasVertexColor (primAt doc m p))
  obtain ⟨prims, hprims⟩ := Option.isSome_iff_exists.mp hent
  have hplen : p < prims.length := by
    rw [hcore.cacheLen m prims hprims]
    exact hp
  have hget : prims.get? p = some (prims.get ⟨p, hplen⟩) := List.get?_eq_get hplen
  have hslot0 : slotOf st m p = some (prims.get ⟨p, hplen⟩) := by
    unfold slotOf
    rw [hprims, Option.some_bind]
    exact hget
  unfold primStep
  dsimp only
  generalize hG : createMaterialInstance doc gen st (primAt doc m p).material
    (primitiveHasVertexColor (primAt doc m p)) = R
  rw [hG] at hframe
  have hslotR : slotOf R.1 m p = some (prims.get ⟨p, hplen⟩) := by
    rw [slotOf_congr hframe.1 m p]
    exact hslot0
  rw [hslotR]
  simp only [Option.getD_some]
  cases hv : (prims.get ⟨p, hplen⟩).vertices with
  | some v =>
    dsimp only
    exact primStep_hit doc m p ps acc st R.1 _ (prims.get ⟨p, hplen⟩) v
      (getPrimitiveType (primAt doc m p).type) rfl hframe hcore hmid hslot0 hv
  | none =>
    dsimp only
    generalize hr : createPrimitive (primAt doc m p) R.2.2
      (prims.get ⟨p, hplen⟩).aabb R.1.counter = r
    cases hbuf : r.buffers with
    | none =>
      dsimp only
      obtain ⟨c1, c2, c3, c4, c5, c6⟩ := primStep_fail doc m p ps st R.1 _
        (prims.get ⟨p, hplen⟩) r.counter r.bindings r.outAabb rfl hframe hcore hslot0 hv
      exact ⟨c1, c2, c3, c4, c5, fun _ => c6,
        fun hcontra => Bool.noConfusion (c6.symm.trans hcontra)⟩
    | some bp =>
      rcases bp with ⟨v, ix⟩
      dsimp only
      have hna : (prims.get ⟨p, hplen⟩).aabb = emptyAabb →
          r.outAabb = primAabbSpec (primAt doc m p) := by
        intro hempty
        have hs := createPrimitive_success_aabb (primAt doc m p) R.2.2
          (prims.get ⟨p, hplen⟩).aabb R.1.counter (v, ix) (by rw [hr]; exact hbuf)
        rw [hr] at hs
        rw [hs, hempty]
        rfl
      exact primStep_build doc m p ps acc st R.1 _ (prims.get ⟨p, hplen⟩)
        r.counter v ix r.bindings r.outAabb
        (getPrimitiveType (primAt doc m p).type) rfl hframe hcore hmid hslot0 hv hna

/-- Specification of the primitive loop by induction over the pending
index list. -/
theorem primLoop_spec (doc : Doc) (gen : GenF) (m : Nat) :
    ∀ (ips : List Nat) (st : LSt) (acc : AabbQ),
    CoreInv doc st →
    MidSlots doc m ips st →
    (∀ p ∈ ips, p < (meshPrims doc m).length) →
    (lookupA st.meshCache m).isSome = true →
    CoreInv doc (primLoop doc gen m ips st acc).1 ∧
    MidSlots doc m [] (primLoop doc gen m ips st acc).1 ∧
    keysA (primLoop doc gen m ips st acc).1.meshCache = keysA st.meshCache ∧
    (primLoop doc gen m ips st acc).1.renderables = st.renderables ∧
    (primLoop doc gen m ips st acc).1.bbox = st.bbox ∧
    (st.error = true → (primLoop doc gen m ips st acc).1.error = true) ∧
    ((primLoop doc gen m ips st acc).1.error = false →
      st.error = false ∧
      (primLoop doc gen m ips st acc).2 =
        ips.foldl (fun a p => unionAabb (primAabbSpec (primAt doc m p)) a) acc)
  | [], st, acc, hcore, hmid, _, _ =>
    ⟨hcore, hmid, rfl, rfl, rfl, fun h => h, fun h => ⟨h, rfl⟩⟩
  | p :: ps, st, acc, hcore, hmid, hlen, hent => by
    obtain ⟨score, smid, skeys, srend, sbbox, smono, serr⟩ :=
      primStep_spec doc gen m ps p st acc hcore hmid
        (hlen p (List.mem_cons_self p ps)) hent
    have hent2 : (lookupA (primStep doc gen m st acc p).1.meshCache m).isSome = true := by
      rw [← mem_keys_iff_isSome] at hent ⊢
      rw [skeys]
      exact hent
    obtain ⟨icore, imid, ikeys, irend, ibbox, imono, ierr⟩ :=
      primLoop_spec doc gen m ps (primStep doc gen m st acc p).1
        (primStep doc gen m st acc p).2 score smid
        (fun q hq => hlen q (List.mem_cons_of_mem p hq)) hent2
    have heq : primLoop doc gen m (p :: ps) st acc =
        primLoop doc gen m ps (primStep doc gen m st acc p).1
          (primStep doc gen m st acc p).2 := rfl
    rw [heq]
    refine ⟨icore, imid, ikeys.trans skeys, irend.trans srend, ibbox.trans sbbox,
      fun h => imono (smono h), fun h => ?_⟩
    obtain ⟨herr1, hacc⟩ := ierr h
    obtain ⟨herr0, haccs⟩ := serr herr1
    refine ⟨herr0, ?_⟩
    rw [List.foldl_cons, hacc, haccs]

theorem get_replicate_of_get? {α : Type} :
    ∀ (n p : Nat) (a b : α), (List.replicate n a).get? p = some b → b = a ∧ p < n
  | 0, _, _, _, h => by cases h
  | n + 1, 0, a, b, h => by
    simp [List.replicate] at h
    exact ⟨h.symm, Nat.succ_pos n⟩
  | n + 1, p + 1, a, b, h => by
    simp only [List.replicate, List.get?] at h
    obtain ⟨hb, hp⟩ := get_replicate_of_get? n p a b h
    exact ⟨hb, Nat.succ_lt_succ hp⟩

/-- The core invariant only looks at the mesh cache, the geometry calls
and the build events. -/
theorem coreInv_congr (doc : Doc) (st st' : LSt)
    (hmc : st'.meshCache = st.meshCache) (hg : st'.geoms = st.geoms)
    (hb : st'.buildEvents = st.buildEvents) (h : CoreInv doc st) : CoreInv doc st' := by
  have hs : ∀ a b, slotOf st' a b = slotOf st a b := fun a b => slotOf_congr hmc a b
  refine ⟨?_, ?_, ?_, ?_, ?_, ?_⟩
  · intro m prims hp
    exact h.cacheLen m prims (by rw [← hmc]; exact hp)
  · rw [hmc]
    exact h.keysNodup
  · intro g hgm
    rw [hg] at hgm
    obtain ⟨pr, h1, h2, h3⟩ := h.geomsOK g hgm
    exact ⟨pr, by rw [hs]; exact h1, h2, h3⟩
  · intro m p
    rw [hb]
    constructor
    · intro hmem
      obtain ⟨pr, h1, h2⟩ := (h.buildIff m p).mp hmem
      exact ⟨pr, by rw [hs]; exact h1, h2⟩
    · intro hex
      obtain ⟨pr, h1, h2⟩ := hex
      exact (h.buildIff m p).mpr ⟨pr, by rw [← hs]; exact h1, h2⟩
  · rw [hb]
    exact h.buildNodup
  · intro m p pr h1 h2
    exact h.viPair m p pr (by rw [← hs]; exact h1) h2

/-- The mid-loop slot condition only looks at the mesh cache and the
error flag. -/
theorem midSlots_congr (doc : Doc) (m : Nat) (ps : List Nat) (st st' : LSt)
    (hmc : st'.meshCache = st.meshCache) (he : st'.error = st.error)
    (h : MidSlots doc m ps st) : MidSlots doc m ps st' := by
  intro herr a b pr hsl
  exact h (by rw [← he]; exact herr) a b pr (by rw [← slotOf_congr hmc]; exact hsl)

/-- With no pending index the mesh parameter of the mid-loop condition
is irrelevant. -/
theorem midSlots_nil_any (doc : Doc) (m m' : Nat) (st : LSt)
    (h : MidSlots doc m [] st) : MidSlots doc m' [] st := by
  intro herr a b pr hs
  rcases h herr a b pr hs with hg | hbad
  · exact Or.inl hg
  · cases hbad.2.1

/-- The union of the specified boxes of all primitives of a mesh: the
accumulator of an error-free primitive loop. -/
def meshUnionBox (doc : Doc) (m : Nat) : AabbQ :=
  (List.range (meshPrims doc m).length).foldl
    (fun a p => unionAabb (primAabbSpec (primAt doc m p)) a) emptyAabb

/-- Slots after allocating a fresh mesh-cache entry. -/
theorem slotOf_alloc (st : LSt) (m nprims : Nat) (a b : Nat) :
    slotOf { st with meshCache := insertA st.meshCache m (List.replicate nprims defPrimRec) } a b =
    if a = m then (List.replicate nprims defPrimRec).get? b else slotOf st a b := by
  unfold slotOf
  dsimp only
  by_cases ha : a = m
  · subst ha
    rw [lookupA_insertA_self, if_pos rfl]
    rfl
  · rw [lookupA_insertA_ne _ _ _ _ ha, if_neg ha]

/-- Allocating a fresh entry of default slots preserves the core
invariant. -/
theorem coreInv_alloc (doc : Doc) (st : LSt) (m : Nat)
    (hmiss : lookupA st.meshCache m = none) (hcore : CoreInv doc st) :
    CoreInv doc { st with
      meshCache := insertA st.meshCache m (List.replicate (meshPrims doc m).length defPrimRec) } := by
  refine ⟨?_, ?_, ?_, ?_, ?_, ?_⟩
  · intro m' prims hp
    dsimp only at hp
    by_cases hm : m' = m
    · subst hm
      rw [lookupA_insertA_self] at hp
      rw [← Option.some_inj.mp hp]
      exact List.length_replicate _ _
    · rw [lookupA_insertA_ne _ _ _ _ hm] at hp
      exact hcore.cacheLen m' prims hp
  · dsimp only
    rw [keysA_insertA_new _ _ _ hmiss]
    refine List.Nodup.append hcore.keysNodup (List.nodup_singleton m) ?_
    intro x hx hx'
    rw [List.mem_singleton] at hx'
    subst hx'
    exact (lookupA_none_iff_not_mem _ _).mp hmiss hx
  · intro g hg
    obtain ⟨pr, hsl, hv, hi⟩ := hcore.geomsOK g hg
    have hgm : g.mesh ≠ m := by
      intro he
      rw [he] at hsl
      unfold slotOf at hsl
      rw [hmiss] at hsl
      cases hsl
    rw [slotOf_alloc, if_neg hgm]
    exact ⟨pr, hsl, hv, hi⟩
  · intro m' p
    constructor
    · intro hmem
      obtain ⟨pr, hsl, hv⟩ := (hcore.buildIff m' p).mp hmem
      have hm : m' ≠ m := by
        intro he
        rw [he] at hsl
        unfold slotOf at hsl
        rw [hmiss] at hsl
        cases hsl
      rw [slotOf_alloc, if_neg hm]
      exact ⟨pr, hsl, hv⟩
    · intro hex
      obtain ⟨pr, hsl, hv⟩ := hex
      rw [slotOf_alloc] at hsl
      by_cases hm : m' = m
      · rw [if_pos hm] at hsl
        obtain ⟨hpr, _⟩ := get_replicate_of_get? _ _ _ _ hsl
        rw [hpr] at hv
        cases hv
      · rw [if_neg hm] at hsl
        exact (hcore.buildIff m' p).mpr ⟨pr, hsl, hv⟩
  · exact hcore.buildNodup
  · intro m' p pr hsl hv
    rw [slotOf_alloc] at hsl
    by_cases hm : m' = m
    · rw [if_pos hm] at hsl
      obtain ⟨hpr, _⟩ := get_replicate_of_get? _ _ _ _ hsl
      rw [hpr] at hv
      cases hv
    · rw [if_neg hm] at hsl
      exact hcore.viPair m' p pr hsl hv

/-- After a fresh allocation, every slot is either fully built (from
the invariant) or a default slot of the new entry with a pending
index. -/
theorem midSlots_alloc (doc : Doc) (st : LSt) (m : Nat)
    (hslots : MidSlots doc 0 [] st) :
    MidSlots doc m (List.range (meshPrims doc m).length)
      { st with
        meshCache := insertA st.meshCache m (List.replicate (meshPrims doc m).length defPrimRec) } := by
  intro herr a b pr hsl
  rw [slotOf_alloc] at hsl
  by_cases ha : a = m
  · rw [if_pos ha] at hsl
    obtain ⟨hpr, hb⟩ := get_replicate_of_get? _ _ _ _ hsl
    exact Or.inr ⟨ha, List.mem_range.mpr hb, hpr⟩
  · rw [if_neg ha] at hsl
    rcases hslots herr a b pr hsl with hg | hbad
    · exact Or.inl hg
    · cases hbad.2.1

/-- Specification of `createRenderable`: invariant preservation, mesh
key and renderable bookkeeping, error monotonicity and the bounding-box
update of error-free runs. -/
theorem createRenderable_spec (doc : Doc) (gen : GenF) (st : LSt) (world : Aff) (m : Nat)
    (hinv : TravInv doc st) :
    TravInv doc (createRenderable doc gen st world m) ∧
    keysA (createRenderable doc gen st world m).meshCache =
      (if m ∈ keysA st.meshCache then keysA st.meshCache
       else keysA st.meshCache ++ [m]) ∧
    (createRenderable doc gen st world m).renderables
      = st.renderables ++ [(world, m)] ∧
    (st.error = true → (createRenderable doc gen st world m).error = true) ∧
    ((createRenderable doc gen st world m).error = false →
      st.error = false ∧
      (createRenderable doc gen st world m).bbox =
        ⟨vmin st.bbox.min (Aff.apply world (meshUnionBox doc m).min),
         vmax st.bbox.max (Aff.apply world (meshUnionBox doc m).max)⟩) := by
  obtain ⟨hcore, hslots⟩ := hinv
  unfold createRenderable
  dsimp only
  cases hlk : lookupA st.meshCache m with
  | some prims =>
    dsimp only
    have hmid : MidSlots doc m (List.range (meshPrims doc m).length) st := by
      intro herr a b pr hs
      rcases hslots herr a b pr hs with hg | hbad
      · exact Or.inl hg
      · cases hbad.2.1
    have hent : (lookupA st.meshCache m).isSome = true := by
      rw [hlk]
      rfl
    obtain ⟨lcore, lmid, lkeys, lrend, lbbox, lmono, lerr⟩ :=
      primLoop_spec doc gen m (List.range (meshPrims doc m).length) st emptyAabb
        hcore hmid (fun p hp => List.mem_range.mp hp) hent
    have hmem : m ∈ keysA st.meshCache := (mem_keys_iff_isSome _ _).mpr hent
    refine ⟨⟨coreInv_congr doc
        ((primLoop doc gen m (List.range (meshPrims doc m).length) st emptyAabb).1) _
        rfl rfl rfl lcore,
      midSlots_congr doc 0 []
        ((primLoop doc gen m (List.range (meshPrims doc m).length) st emptyAabb).1) _
        rfl rfl (midSlots_nil_any doc m 0 _ lmid)⟩,
      ?_, ?_, lmono, ?_⟩
    · rw [if_pos hmem]
      exact lkeys
    · rw [lrend]
    · intro h
      obtain ⟨h0, hacc⟩ := lerr h
      refine ⟨h0, ?_⟩
      rw [lbbox, hacc]
      rfl
  | none =>
    dsimp only
    have hent1 : (lookupA (insertA st.meshCache m
        (List.replicate (meshPrims doc m).length defPrimRec)) m).isSome = true := by
      rw [lookupA_insertA_self]
      rfl
    obtain ⟨lcore, lmid, lkeys, lrend, lbbox, lmono, lerr⟩ :=
      primLoop_spec doc gen m (List.range (meshPrims doc m).length)
        { st with
          meshCache := insertA st.meshCache m (List.replicate (meshPrims doc m).length defPrimRec) }
        emptyAabb (coreInv_alloc doc st m hlk hcore) (midSlots_alloc doc st m hslots)
        (fun p hp => List.mem_range.mp hp) hent1
    have hnm : m ∉ keysA st.meshCache := (lookupA_none_iff_not_mem _ _).mp hlk
    have hk2 : keysA (insertA st.meshCache m
        (List.replicate (meshPrims doc m).length defPrimRec)) =
        keysA st.meshCache ++ [m] := keysA_insertA_new _ _ _ hlk
    refine ⟨⟨coreInv_congr doc
        ((primLoop doc gen m (List.range (meshPrims doc m).length)
          { st with
            meshCache := insertA st.meshCache m
              (List.replicate (meshPrims doc m).length defPrimRec) }
          emptyAabb).1) _
        rfl rfl rfl lcore,
      midSlots_congr doc 0 []
        ((primLoop doc gen m (List.range (meshPrims doc m).length)
          { st with
            meshCache := insertA st.meshCache m
              (List.replicate (meshPrims doc m).length defPrimRec) }
          emptyAabb).1) _
        rfl rfl (midSlots_nil_any doc m 0 _ lmid)⟩,
      ?_, ?_, lmono, ?_⟩
    · rw [if_neg hnm]
      exact lkeys.trans hk2
    · rw [lrend]
    · intro h
      obtain ⟨h0, hacc⟩ := lerr h
      refine ⟨h0, ?_⟩
      rw [lbbox, hacc]
      rfl

/-- Membership form of the mesh-key bookkeeping of `createRenderable`. -/
theorem createRenderable_keys_mem (doc : Doc) (gen : GenF) (st : LSt) (world : Aff)
    (m : Nat) (hinv : TravInv doc st) (m' : Nat) :
    m' ∈ keysA (createRenderable doc gen st world m).meshCache ↔
    (m' ∈ keysA st.meshCache ∨ m' = m) := by
  obtain ⟨_, hkeys, _, _, _⟩ := createRenderable_spec doc gen st world m hinv
  rw [hkeys]
  by_cases hc : m ∈ keysA st.meshCache
  · rw [if_pos hc]
    constructor
    · exact Or.inl
    · intro h
      rcases h with h | h
      · exact h
      · rw [h]
        exact hc
  · rw [if_neg hc]
    rw [List.mem_append, List.mem_singleton]

mutual

/-- `createEntity` preserves the traversal invariant, adds exactly the
node's meshes to the cache keys, and is error-monotone. -/
theorem createEntity_spec (doc : Doc) (gen : GenF) :
    ∀ (n : NodeT) (st : LSt) (pw : Aff),
    TravInv doc st →
    TravInv doc (createEntity doc gen st pw n) ∧
    (∀ m', m' ∈ keysA (createEntity doc gen st pw n).meshCache ↔
      (m' ∈ keysA st.meshCache ∨ m' ∈ meshesOfNode n)) ∧
    (st.error = true → (createEntity doc gen st pw n).error = true)
  | NodeT.node nid lt mesh skin children, st, pw, hinv => by
    have heq : createEntity doc gen st pw (NodeT.node nid lt mesh skin children) =
        createEntities doc gen
          (match mesh with
            | some m => createRenderable doc gen
                { st with
                  counter := st.counter + 1
                  entities := st.entities ++ [st.counter]
                  nodeMap := insertA st.nodeMap nid st.counter }
                (compAff pw lt) m
            | none =>
                { st with
                  counter := st.counter + 1
                  entities := st.entities ++ [st.counter]
                  nodeMap := insertA st.nodeMap nid st.counter })
          (compAff pw lt) children := rfl
    rw [heq]
    have hinv1 : TravInv doc
        { st with
          counter := st.counter + 1
          entities := st.entities ++ [st.counter]
          nodeMap := insertA st.nodeMap nid st.counter } := by
      obtain ⟨hcore, hslots⟩ := hinv
      exact ⟨coreInv_congr doc st _ rfl rfl rfl hcore,
        midSlots_congr doc 0 [] st _ rfl rfl hslots⟩
    cases mesh with
    | some m =>
      dsimp only
      obtain ⟨rinv, _, _, rmono, _⟩ := createRenderable_spec doc gen
        { st with
          counter := st.counter + 1
          entities := st.entities ++ [st.counter]
          nodeMap := insertA st.nodeMap nid st.counter }
        (compAff pw lt) m hinv1
      have rkeys := createRenderable_keys_mem doc gen
        { st with
          counter := st.counter + 1
          entities := st.entities ++ [st.counter]
          nodeMap := insertA st.nodeMap nid st.counter }
        (compAff pw lt) m hinv1
      obtain ⟨einv, ekeys, emono⟩ := createEntities_spec doc gen children
        (createRenderable doc gen
          { st with
            counter := st.counter + 1
            entities := st.entities ++ [st.counter]
            nodeMap := insertA st.nodeMap nid st.counter }
          (compAff pw lt) m)
        (compAff pw lt) rinv
      refine ⟨einv, ?_, fun h => emono (rmono h)⟩
      intro m'
      rw [ekeys m', rkeys m']
      unfold meshesOfNode
      rw [List.mem_append, List.mem_singleton]
      constructor
      · intro h
        rcases h with (h | h) | h
        · exact Or.inl h
        · exact Or.inr (Or.inl h)
        · exact Or.inr (Or.inr h)
      · intro h
        rcases h with h | h | h
        · exact Or.inl (Or.inl h)
        · exact Or.inl (Or.inr h)
        · exact Or.inr h
    | none =>
      dsimp only
      obtain ⟨einv, ekeys, emono⟩ := createEntities_spec doc gen children
        { st with
          counter := st.counter + 1
          entities := st.entities ++ [st.counter]
          nodeMap := insertA st.nodeMap nid st.counter }
        (compAff pw lt) hinv1
      refine ⟨einv, ?_, emono⟩
      intro m'
      rw [ekeys m']
      unfold meshesOfNode
      rw [List.nil_append]

/-- `createEntities` over a sibling list. -/
theorem createEntities_spec (doc : Doc) (gen : GenF) :
    ∀ (ns : List NodeT) (st : LSt) (pw : Aff),
    TravInv doc st →
    TravInv doc (createEntities doc gen st pw ns) ∧
    (∀ m', m' ∈ keysA (createEntities doc gen st pw ns).meshCache ↔
      (m' ∈ keysA st.meshCache ∨ m' ∈ meshesOfForest ns)) ∧
    (st.error = true → (createEntities doc gen st pw ns).error = true)
  | [], st, pw, hinv =>
    ⟨hinv, fun m' => by
      rw [show createEntities doc gen st pw [] = st from rfl,
        show meshesOfForest [] = [] from rfl]
      simp, fun h => h⟩
  | n :: ns, st, pw, hinv => by
    have heq : createEntities doc gen st pw (n :: ns) =
        createEntities doc gen (createEntity doc gen st pw n) pw ns := rfl
    rw [heq]
    obtain ⟨ninv, nkeys, nmono⟩ := createEntity_spec doc gen n st pw hinv
    obtain ⟨einv, ekeys, emono⟩ := createEntities_spec doc gen ns
      (createEntity doc gen st pw n) pw ninv
    refine ⟨einv, ?_, fun h => emono (nmono h)⟩
    intro m'
    rw [ekeys m', nkeys m']
    rw [show meshesOfForest (n :: ns) = meshesOfNode n ++ meshesOfForest ns from rfl]
    rw [List.mem_append]
    constructor
    · intro h
      rcases h with (h | h) | h
      · exact Or.inl h
      · exact Or.inr (Or.inl h)
      · exact Or.inr (Or.inr h)
    · intro h
      rcases h with h | h | h
      · exact Or.inl (Or.inl h)
      · exact Or.inl (Or.inr h)
      · exact Or.inr h

end

/-- The state entering the root-node recursion satisfies the traversal
invariant: every cache, geometry and event list is still empty. -/
theorem travInv_init (doc : Doc) :
    TravInv doc { initLSt with root := some initLSt.counter, counter := initLSt.counter + 1 } := by
  constructor
  · refine ⟨?_, ?_, ?_, ?_, ?_, ?_⟩
    · intro m prims hp
      exact Option.noConfusion hp
    · exact List.nodup_nil
    · intro g hg
      exact absurd hg (List.not_mem_nil g)
    · intro m p
      constructor
      · intro h
        exact absurd h (List.not_mem_nil (m, p))
      · intro hex
        obtain ⟨pr, h1, _⟩ := hex
        exact Option.noConfusion h1
    · exact List.nodup_nil
    · intro m p pr h1 _
      exact Option.noConfusion h1
  · intro herr a b pr hs
    exact absurd hs (fun hc => Option.noConfusion hc)

/-- Two sibling nodes that both reference mesh 0. -/
def nodeC1a : NodeT := NodeT.node 10 idAff (some 0) none []

/-- The second node referencing mesh 0. -/
def nodeC1b : NodeT := NodeT.node 11 idAff (some 0) none []

/-- A document whose single scene holds two nodes sharing one
triangle mesh. -/
def docC1 : Doc := ⟨[[nodeC1a, nodeC1b]], none, [⟨[triPrim]⟩], [], []⟩

/-- **C1**: on an error-free import, any two geometry calls for the
same source mesh and primitive slot carry identical vertex- and
index-buffer handles; the buffers are built exactly once per (mesh,
primitive) pair, with a build event exactly for every primitive of
every referenced mesh; and the mesh cache holds exactly one entry per
distinct referenced source mesh. -/
theorem c1_mesh_cache_sharing (doc : Doc) (gen : GenF) (roots : List NodeT)
    (hsel : selectedScene doc = some roots)
    (herr : (traverse doc gen roots).error = false) :
    (∀ g g', g ∈ (traverse doc gen roots).geoms → g' ∈ (traverse doc gen roots).geoms →
      g.mesh = g'.mesh → g.prim = g'.prim →
      g.vertices = g'.vertices ∧ g.indices = g'.indices) ∧
    (traverse doc gen roots).buildEvents.Nodup ∧
    (∀ m p, (m, p) ∈ (traverse doc gen roots).buildEvents ↔
      (m ∈ meshesOfForest roots ∧ p < (meshPrims doc m).length)) ∧
    (keysA (traverse doc gen roots).meshCache).Nodup ∧
    (∀ m, m ∈ keysA (traverse doc gen roots).meshCache ↔ m ∈ meshesOfForest roots) := by
  obtain ⟨⟨hcore, hslots⟩, hkeys, _⟩ := createEntities_spec doc gen roots
    { initLSt with root := some initLSt.counter, counter := initLSt.counter + 1 }
    idAff (travInv_init doc)
  have htr : traverse doc gen roots = createEntities doc gen
      { initLSt with root := some initLSt.counter, counter := initLSt.counter + 1 }
      idAff roots := rfl
  rw [htr] at herr ⊢
  have hkeys2 : ∀ m, m ∈ keysA (createEntities doc gen
      { initLSt with root := some initLSt.counter, counter := initLSt.counter + 1 }
      idAff roots).meshCache ↔ m ∈ meshesOfForest roots := by
    intro m
    rw [hkeys m]
    constructor
    · intro h
      rcases h with h | h
      · exact absurd h (List.not_mem_nil m)
      · exact h
    · exact Or.inr
  refine ⟨?_, hcore.buildNodup, ?_, hcore.keysNodup, hkeys2⟩
  · intro g g' hg hg' hm hp
    obtain ⟨pr, hsl, hv, hi⟩ := hcore.geomsOK g hg
    obtain ⟨pr', hsl', hv', hi'⟩ := hcore.geomsOK g' hg'
    rw [hm, hp] at hsl
    have hpr : pr = pr' := Option.some_inj.mp (hsl.symm.trans hsl')
    subst hpr
    exact ⟨Option.some_inj.mp (hv.symm.trans hv'),
      Option.some_inj.mp (hi.symm.trans hi')⟩
  · intro m p
    constructor
    · intro hmem
      obtain ⟨pr, hsl, hvs⟩ := (hcore.buildIff m p).mp hmem
      unfold slotOf at hsl
      cases hlm : lookupA (createEntities doc gen
          { initLSt with root := some initLSt.counter, counter := initLSt.counter + 1 }
          idAff roots).meshCache m with
      | none =>
        rw [hlm] at hsl
        exact Option.noConfusion hsl
      | some prims =>
        rw [hlm] at hsl
        rw [Option.some_bind] at hsl
        have hmk : m ∈ keysA (createEntities doc gen
            { initLSt with root := some initLSt.counter, counter := initLSt.counter + 1 }
            idAff roots).meshCache :=
          (mem_keys_iff_isSome _ _).mpr (by rw [hlm]; rfl)
        refine ⟨(hkeys2 m).mp hmk, ?_⟩
        have hplt : p < prims.length := by
          by_contra hge
          rw [List.get?_eq_none.mpr (Nat.le_of_not_lt hge)] at hsl
          exact Option.noConfusion hsl
        rw [← hcore.cacheLen m prims hlm]
        exact hplt
    · intro hmp
      obtain ⟨hm, hplt⟩ := hmp
      have hmk := (hkeys2 m).mpr hm
      obtain ⟨prims, hlm⟩ := Option.isSome_iff_exists.mp ((mem_keys_iff_isSome _ _).mp hmk)
      have hplt2 : p < prims.length := by
        rw [hcore.cacheLen m prims hlm]
        exact hplt
      have hsl : slotOf (createEntities doc gen
          { initLSt with root := some initLSt.counter, counter := initLSt.counter + 1 }
          idAff roots) m p = some (prims.get ⟨p, hplt2⟩) := by
        unfold slotOf
        rw [hlm, Option.some_bind]
        exact List.get?_eq_get hplt2
      rcases hslots herr m p (prims.get ⟨p, hplt2⟩) hsl with hgood | hbad
      · exact (hcore.buildIff m p).mpr ⟨prims.get ⟨p, hplt2⟩, hsl, hgood.1⟩
      · exact absurd hbad.2.1 (List.not_mem_nil p)

/-- Witness for **C1** at `docC1`: the two-node single-mesh scene
imports without error, and its cache keys are exactly the referenced
mesh. -/
theorem c1_mesh_cache_sharing_witness :
    selectedScene docC1 = some [nodeC1a, nodeC1b] ∧
    (traverse docC1 genId [nodeC1a, nodeC1b]).error = false ∧
    (∀ m, m ∈ keysA (traverse docC1 genId [nodeC1a, nodeC1b]).meshCache ↔
      m ∈ meshesOfForest [nodeC1a, nodeC1b]) :=
  ⟨rfl, by decide,
    (c1_mesh_cache_sharing docC1 genId [nodeC1a, nodeC1b] rfl (by decide)).2.2.2.2⟩

mutual

/-- The bounding-box recurrence that `createEntity` actually computes:
at each mesh-bearing node the accumulated box is extended with the two
world-transformed corner points of the union of the node's primitive
boxes (the two-corner transform of lines 314-317), not with the
transformed box itself. -/
def codeNodeBox (doc : Doc) (w : Aff) : NodeT → AabbQ → AabbQ
  | NodeT.node _ lt mesh _ children, acc =>
    let w' := compAff w lt
    let acc := match mesh with
      | some m =>
        ⟨vmin acc.min (Aff.apply w' (meshUnionBox doc m).min),
         vmax acc.max (Aff.apply w' (meshUnionBox doc m).max)⟩
      | none => acc
    codeForestBox doc w' children acc

/-- `codeNodeBox` over a forest. -/
def codeForestBox (doc : Doc) (w : Aff) : List NodeT → AabbQ → AabbQ
  | [], acc => acc
  | n :: ns, acc => codeForestBox doc w ns (codeNodeBox doc w n acc)

end

/-- A 90-degree rotation about the z axis. -/
def rotZ90 : Aff := ⟨⟨0, -1, 0, 1, 0, 0, 0, 0, 1⟩, ⟨0, 0, 0⟩⟩

/-- A node bearing mesh 0 under a 90-degree rotation. -/
def nodeC5 : NodeT := NodeT.node 0 rotZ90 (some 0) none []

/-- A document whose single scene holds one rotated triangle mesh. -/
def docC5 : Doc := ⟨[[nodeC5]], none, [⟨[triPrim]⟩], [], []⟩

/-- The identity transform fixes every point. -/
theorem idAff_apply (v : V3) : Aff.apply idAff v = v := by
  cases v
  simp [Aff.apply, idAff, idM3, M3.mulV, vadd]

mutual

/-- The bounding box of an error-free `createEntity` run follows the
code-side two-corner recurrence. -/
theorem entityBox_spec (doc : Doc) (gen : GenF) :
    ∀ (n : NodeT) (st : LSt) (w : Aff),
    TravInv doc st →
    (createEntity doc gen st w n).error = false →
    (createEntity doc gen st w n).bbox = codeNodeBox doc w n st.bbox
  | NodeT.node nid lt mesh skin children, st, w, hinv, herr => by
    revert herr
    have heq : createEntity doc gen st w (NodeT.node nid lt mesh skin children) =
        createEntities doc gen
          (match mesh with
            | some m => createRenderable doc gen
                { st with
                  counter := st.counter + 1
                  entities := st.entities ++ [st.counter]
                  nodeMap := insertA st.nodeMap nid st.counter }
                (compAff w lt) m
            | none =>
                { st with
                  counter := st.counter + 1
                  entities := st.entities ++ [st.counter]
                  nodeMap := insertA st.nodeMap nid st.counter })
          (compAff w lt) children := rfl
    rw [heq]
    clear heq
    have hceq : codeNodeBox doc w (NodeT.node nid lt mesh skin children) st.bbox =
        codeForestBox doc (compAff w lt) children
          (match mesh with
            | some m =>
              (⟨vmin st.bbox.min (Aff.apply (compAff w lt) (meshUnionBox doc m).min),
                vmax st.bbox.max (Aff.apply (compAff w lt) (meshUnionBox doc m).max)⟩ : AabbQ)
            | none => st.bbox) := rfl
    rw [hceq]
    have hinv1 : TravInv doc
        { st with
          counter := st.counter + 1
          entities := st.entities ++ [st.counter]
          nodeMap := insertA st.nodeMap nid st.counter } := by
      obtain ⟨hcore, hslots⟩ := hinv
      exact ⟨coreInv_congr doc st _ rfl rfl rfl hcore,
        midSlots_congr doc 0 [] st _ rfl rfl hslots⟩
    cases mesh with
    | some m =>
      dsimp only
      intro herr
      obtain ⟨rinv, _, _, _, rerr⟩ := createRenderable_spec doc gen
        { st with
          counter := st.counter + 1
          entities := st.entities ++ [st.counter]
          nodeMap := insertA st.nodeMap nid st.counter }
        (compAff w lt) m hinv1
      obtain ⟨_, _, emono⟩ := createEntities_spec doc gen children
        (createRenderable doc gen
          { st with
            counter := st.counter + 1
            entities := st.entities ++ [st.counter]
            nodeMap := insertA st.nodeMap nid st.counter }
          (compAff w lt) m)
        (compAff w lt) rinv
      have hr2 : (createRenderable doc gen
          { st with
            counter := st.counter + 1
            entities := st.entities ++ [st.counter]
            nodeMap := insertA st.nodeMap nid st.counter }
          (compAff w lt) m).error = false := by
        cases hc : (createRenderable doc gen
            { st with
              counter := st.counter + 1
              entities := st.entities ++ [st.counter]
              nodeMap := insertA st.nodeMap nid st.counter }
            (compAff w lt) m).error with
        | false => rfl
        | true => exact Bool.noConfusion ((emono hc).symm.trans herr)
      obtain ⟨_, hbbox⟩ := rerr hr2
      rw [entitiesBox_spec doc gen children
        (createRenderable doc gen
          { st with
            counter := st.counter + 1
            entities := st.entities ++ [st.counter]
            nodeMap := insertA st.nodeMap nid st.counter }
          (compAff w lt) m)
        (compAff w lt) rinv herr, hbbox]
    | none =>
      dsimp only
      intro herr
      exact entitiesBox_spec doc gen children
        { st with
          counter := st.counter + 1
          entities := st.entities ++ [st.counter]
          nodeMap := insertA st.nodeMap nid st.counter }
        (compAff w lt) hinv1 herr

/-- `entityBox_spec` over a sibling list. -/
theorem entitiesBox_spec (doc : Doc) (gen : GenF) :
    ∀ (ns : List NodeT) (st : LSt) (w : Aff),
    TravInv doc st →
    (createEntities doc gen st w ns).error = false →
    (createEntities doc gen st w ns).bbox = codeForestBox doc w ns st.bbox
  | [], _, _, _, _ => rfl
  | n :: ns, st, w, hinv, herr => by
    have heq : createEntities doc gen st w (n :: ns) =
        createEntities doc gen (createEntity doc gen st w n) w ns := rfl
    rw [heq] at herr ⊢
    obtain ⟨ninv, _, nmono⟩ := createEntity_spec doc gen n st w hinv
    obtain ⟨_, _, emono⟩ := createEntities_spec doc gen ns (createEntity doc gen st w n) w ninv
    have hne : (createEntity doc gen st w n).error = false := by
      cases hc : (createEntity doc gen st w n).error with
      | false => rfl
      | true => exact Bool.noConfusion ((emono hc).symm.trans herr)
    rw [entitiesBox_spec doc gen ns (createEntity doc gen st w n) w ninv herr,
      entityBox_spec doc gen n st w hinv hne]
    rfl

end

/-- The bounding box of an error-free traversal is the code-side box
of the scene forest. -/
theorem traverse_bbox (doc : Doc) (gen : GenF) (roots : List NodeT)
    (herr : (traverse doc gen roots).error = false) :
    (traverse doc gen roots).bbox = codeForestBox doc idAff roots emptyAabb :=
  entitiesBox_spec doc gen roots
    { initLSt with root := some initLSt.counter, counter := initLSt.counter + 1 }
    idAff (travInv_init doc) herr

/-- Transforming an ordered, bounded box by the identity reproduces it:
the span of its eight (identity-mapped) corners is the box itself. -/
theorem transformAabb_id (b : AabbQ)
    (h1 : vle b.min b.max) (h2 : vle b.max ⟨fltMax, fltMax, fltMax⟩)
    (h3 : vle ⟨-fltMax, -fltMax, -fltMax⟩ b.min) :
    transformAabb idAff b = b := by
  obtain ⟨⟨ax, ay, az⟩, ⟨cx, cy, cz⟩⟩ := b
  obtain ⟨hx1, hy1, hz1⟩ := h1
  obtain ⟨hx2, hy2, hz2⟩ := h2
  obtain ⟨hx3, hy3, hz3⟩ := h3
  simp only [transformAabb, corners, spanPoints, List.map, List.foldl, idAff_apply,
    vmin, vmax, emptyAabb, AabbQ.mk.injEq, V3.mk.injEq]
  simp only [min_eq_right (hx1.trans hx2), min_eq_right (hy1.trans hy2),
    min_eq_right (hz1.trans hz2), min_self, min_eq_left hx1, min_eq_left hy1,
    min_eq_left hz1, max_eq_right hx3, max_eq_right hy3, max_eq_right hz3,
    max_self, max_eq_right hx1, max_eq_right hy1, max_eq_right hz1,
    max_eq_left hx1, max_eq_left hy1, max_eq_left hz1]
  exact ⟨⟨trivial, trivial, trivial⟩, trivial, trivial, trivial⟩

/-- The x component of the code-side box of the rotated scene. -/
theorem c5code_max_x :
    (codeForestBox docC5 idAff [nodeC5] emptyAabb).max.x = -1 := by
  norm_num [codeForestBox, codeNodeBox, docC5, nodeC5, meshUnionBox, meshPrims, primAt,
    primAabbSpec, triPrim, posAttr, posAcc, expandPosAabb, unionAabb, emptyAabb, vmin, vmax,
    compAff, idAff, idM3, M3.mul, M3.mulV, Aff.apply, vadd, rotZ90, fltMax,
    List.foldl, show List.range 1 = [0] from rfl, List.getD, min_def, max_def]

/-- The x component of the spec's box of the rotated scene. -/
theorem c5spec_max_x :
    (specBBox docC5 [nodeC5]).max.x = 0 := by
  norm_num [specBBox, specForestBox, specNodeBox, docC5, nodeC5, meshPrims, primAabbSpec,
    triPrim, posAttr, posAcc, expandPosAabb, transformAabb, corners, spanPoints, unionAabb,
    emptyAabb, vmin, vmax, compAff, idAff, idM3, M3.mul, M3.mulV, Aff.apply, vadd, rotZ90,
    fltMax, List.foldl, List.map, List.getD, min_def, max_def]

/-- **C5** (amended): the emitted asset-level bounding box of an
error-free import is the union, over all mesh-bearing nodes, of the box
spanned by the world-transformed `min` and `max` corners of the union
of the node's primitive boxes — the two-corner transform — rather than
of each primitive's transformed axis-aligned box; and transforming an
ordered, bounded box by the identity matrix does reproduce it
exactly. -/
theorem c5_bounding_box (doc : Doc) (gen : GenF) (roots : List NodeT)
    (hsel : selectedScene doc = some roots)
    (herr : (traverse doc gen roots).error = false) :
    (traverse doc gen roots).bbox = codeForestBox doc idAff roots emptyAabb ∧
    (∀ b : AabbQ, vle b.min b.max → vle b.max ⟨fltMax, fltMax, fltMax⟩ →
      vle ⟨-fltMax, -fltMax, -fltMax⟩ b.min → transformAabb idAff b = b) :=
  ⟨traverse_bbox doc gen roots herr,
    fun b h1 h2 h3 => transformAabb_id b h1 h2 h3⟩

/-- Witness for **C5** at `docC1`. -/
theorem c5_bounding_box_witness :
    selectedScene docC1 = some [nodeC1a, nodeC1b] ∧
    (traverse docC1 genId [nodeC1a, nodeC1b]).error = false ∧
    ((traverse docC1 genId [nodeC1a, nodeC1b]).bbox =
      codeForestBox docC1 idAff [nodeC1a, nodeC1b] emptyAabb ∧
     (∀ b : AabbQ, vle b.min b.max → vle b.max ⟨fltMax, fltMax, fltMax⟩ →
      vle ⟨-fltMax, -fltMax, -fltMax⟩ b.min → transformAabb idAff b = b)) :=
  ⟨rfl, by decide, c5_bounding_box docC1 genId [nodeC1a, nodeC1b] rfl (by decide)⟩

/-- Counterexample to **C5** as stated: under a 90-degree rotation the
error-free import's box differs from the union of the transformed
per-primitive boxes, because the code transforms only the two corner
points of the per-node union box. -/
theorem c5_bbox_counterexample :
    selectedScene docC5 = some [nodeC5] ∧
    (traverse docC5 genId [nodeC5]).error = false ∧
    (traverse docC5 genId [nodeC5]).bbox ≠ specBBox docC5 [nodeC5] := by
  have herr : (traverse docC5 genId [nodeC5]).error = false := by decide
  refine ⟨rfl, herr, fun h => ?_⟩
  rw [traverse_bbox docC5 genId [nodeC5] herr] at h
  have hx := congrArg (fun bb => bb.max.x) h
  dsimp only at hx
  rw [c5code_max_x, c5spec_max_x] at hx
  norm_num at hx
